import Mathlib

/-!
Verification of the DNS message codec and forwarding relay of the
`codecrafters-rust` repository (crate `dns-server`).

The development shallowly embeds the Rust sources:

* `src/dns-server/src/message.rs`            (RawMessage, DNSMessage, parse_labels, pointer)
* `src/dns-server/src/message/header.rs`     (Header and its codec / build_reply)
* `src/dns-server/src/message/question.rs`   (Question codec; its label loop is a byte-for-byte
                                              inline copy of `parse_labels`, so it is embedded
                                              by the same `parseLoop` function)
* `src/dns-server/src/message/answer.rs`     (ResourceRecord codec, answer_by_type, domains)
* `src/dns-server/src/lib.rs`                (Forwarder: forward / add_answer / build_reply,
                                              parse_and_reply, create_forwarder)

Conventions of the embedding:

* Machine bytes and words are `Nat`; the `u8`/`u16`/`u32` typing invariants of Rust are carried
  as explicit bounds in the well-formedness predicates where they matter.
* Buffers are `List Nat`.
* Fallible Rust functions returning `anyhow::Result` become `Except DnsError _`.  The distinct
  `anyhow!` messages of the source are mapped to distinct `DnsError` constructors (documented at
  the constructor).  A Rust panic / `expect` / `unimplemented!` / out-of-bounds index — which
  aborts the process and is *not* a returned error — is modelled by the separate constructor
  `DnsError.abort`.
* Rust `String`s (always valid UTF-8) are modelled by their byte sequences (`List Nat`);
  `str::from_utf8` becomes the validity check `validUtf8`, `split('.')` / `join(".")` become
  `splitOnDot` / `joinDot` on byte lists (the `'.'` character is the single byte 46 in UTF-8,
  and no multi-byte UTF-8 character contains the byte 46, so this is faithful).
* The process-wide `domains()` table stores `Ipv4Addr` values directly; the source stores the
  dotted strings `"8.8.8.8"` / `"1.1.1.1"` and parses them at lookup with
  `Ipv4Addr::from_str(..).expect(..)`, which never fails on those literals.
-/

/-- Bytes (ASCII) of a string literal; used to write domain names of the embedding readably.
All names occurring in the sources are ASCII, where UTF-8 bytes coincide with code points. -/
def strBytes (s : String) : List Nat :=
  s.toList.map Char.toNat

/-- Big-endian read of two bytes, `u16::from_be_bytes`. -/
def be16 (hi lo : Nat) : Nat := hi * 256 + lo

/-- Big-endian read of four bytes, `u32::from_be_bytes`. -/
def be32 (b0 b1 b2 b3 : Nat) : Nat := ((b0 * 256 + b1) * 256 + b2) * 256 + b3

/-- Big-endian bytes of a `u16` value, `u16::to_be_bytes` (the value is below 2 ^ 16 whenever
the Rust typing invariant holds; the `% 65536` totalizes the function outside it). -/
def beBytes16 (n : Nat) : List Nat := [n % 65536 / 256, n % 256]

/-- Big-endian bytes of a `u32` value, `u32::to_be_bytes`. -/
def beBytes32 (n : Nat) : List Nat :=
  [n % 4294967296 / 16777216, n % 16777216 / 65536, n % 65536 / 256, n % 256]

/-- UTF-8 validity of a byte sequence, the acceptance condition of Rust `str::from_utf8`
(RFC 3629: no overlong forms, no surrogates, at most U+10FFFF). -/
def validUtf8 : List Nat → Bool
  | [] => true
  | b :: rest =>
    if b < 0x80 then validUtf8 rest
    else if 0xC2 ≤ b ∧ b ≤ 0xDF then
      match rest with
      | c1 :: rest' => decide (0x80 ≤ c1 ∧ c1 ≤ 0xBF) && validUtf8 rest'
      | _ => false
    else if b = 0xE0 then
      match rest with
      | c1 :: c2 :: rest' =>
        decide (0xA0 ≤ c1 ∧ c1 ≤ 0xBF) && decide (0x80 ≤ c2 ∧ c2 ≤ 0xBF) && validUtf8 rest'
      | _ => false
    else if (0xE1 ≤ b ∧ b ≤ 0xEC) ∨ b = 0xEE ∨ b = 0xEF then
      match rest with
      | c1 :: c2 :: rest' =>
        decide (0x80 ≤ c1 ∧ c1 ≤ 0xBF) && decide (0x80 ≤ c2 ∧ c2 ≤ 0xBF) && validUtf8 rest'
      | _ => false
    else if b = 0xED then
      match rest with
      | c1 :: c2 :: rest' =>
        decide (0x80 ≤ c1 ∧ c1 ≤ 0x9F) && decide (0x80 ≤ c2 ∧ c2 ≤ 0xBF) && validUtf8 rest'
      | _ => false
    else if b = 0xF0 then
      match rest with
      | c1 :: c2 :: c3 :: rest' =>
        decide (0x90 ≤ c1 ∧ c1 ≤ 0xBF) && decide (0x80 ≤ c2 ∧ c2 ≤ 0xBF) &&
          decide (0x80 ≤ c3 ∧ c3 ≤ 0xBF) && validUtf8 rest'
      | _ => false
    else if 0xF1 ≤ b ∧ b ≤ 0xF3 then
      match rest with
      | c1 :: c2 :: c3 :: rest' =>
        decide (0x80 ≤ c1 ∧ c1 ≤ 0xBF) && decide (0x80 ≤ c2 ∧ c2 ≤ 0xBF) &&
          decide (0x80 ≤ c3 ∧ c3 ≤ 0xBF) && validUtf8 rest'
      | _ => false
    else if b = 0xF4 then
      match rest with
      | c1 :: c2 :: c3 :: rest' =>
        decide (0x80 ≤ c1 ∧ c1 ≤ 0x8F) && decide (0x80 ≤ c2 ∧ c2 ≤ 0xBF) &&
          decide (0x80 ≤ c3 ∧ c3 ≤ 0xBF) && validUtf8 rest'
      | _ => false
    else false

/-- Rust `str::split('.')` at the byte level (the separator `'.'` is the byte 46).
As in Rust, the empty string splits into one empty piece, and consecutive separators
produce empty pieces. -/
def splitOnDot : List Nat → List (List Nat)
  | [] => [[]]
  | b :: rest =>
    match splitOnDot rest with
    | [] => [[]]      -- unreachable: splitOnDot never returns []
    | piece :: pieces =>
      if b = 46 then [] :: piece :: pieces else (b :: piece) :: pieces

/-- Rust `Vec::join(".")` at the byte level. -/
def joinDot : List (List Nat) → List Nat
  | [] => []
  | [l] => l
  | l :: ls => l ++ 46 :: joinDot ls

/-- Error model.  `anyhow::Result` errors of the source are mapped to constructors as follows:
`invalidIndex` = "invalid index: {n}" (RawMessage::get);
`invalidRange` = "invalid range" (RawMessage::get_range);
`bufferExceeded` = "the {n} exceeds the size of the buffer" (current_and_advance_range);
`invalidEnum` = the TryFrom failures of MessageType/OpCode/ResponseCode/Type/DnsClass;
`invalidUtf8` = `str::from_utf8` failure;
`compressionLoop` = "too many pointers jumps, max: 5";
`tooShort` = "invalid message: expecting at least 12 octets for the header.";
`abort` = a Rust panic (slice index out of bounds, `expect`, `unimplemented!`,
`Vec::remove` on an empty vector) — a process abort, not a returned error. -/
inductive DnsError where
  | invalidIndex
  | invalidRange
  | bufferExceeded
  | invalidEnum
  | invalidUtf8
  | compressionLoop
  | tooShort
  | abort
deriving DecidableEq, Repr

/-- Wrapper to keep track of the current position while parsing (`RawMessage` in message.rs). -/
structure RawMessage where
  buffer : List Nat
  currentPos : Nat
deriving DecidableEq, Repr

/-- `RawMessage::get`: read one byte at an absolute index. -/
def RawMessage.get (m : RawMessage) (n : Nat) : Except DnsError Nat :=
  match m.buffer.get? n with
  | some b => .ok b
  | none => .error .invalidIndex

/-- `RawMessage::get_range`: read the byte range `lo..hi` without moving the position
(Rust `slice::get(Range)` succeeds exactly when `lo ≤ hi ≤ len`). -/
def RawMessage.get_range (m : RawMessage) (lo hi : Nat) : Except DnsError (List Nat) :=
  if lo ≤ hi ∧ hi ≤ m.buffer.length then
    .ok ((m.buffer.drop lo).take (hi - lo))
  else .error .invalidRange

/-- `RawMessage::current_and_advance_range`: read `n` bytes at the current position and
advance past them. -/
def RawMessage.current_and_advance_range (m : RawMessage) (n : Nat) :
    Except DnsError (List Nat × RawMessage) :=
  if m.currentPos + n > m.buffer.length then .error .bufferExceeded
  else .ok ((m.buffer.drop m.currentPos).take n, { m with currentPos := m.currentPos + n })

/-- Record classes (`enum Class` in message.rs; renamed `DnsClass` because Mathlib already
declares `Class`). -/
inductive DnsClass where
  | IN   -- 1, Internet
  | CS   -- 2
  | CH   -- 3
  | HS   -- 4
deriving DecidableEq, Repr

/-- Numeric wire value of a class (`Class as u16`). -/
def DnsClass.toNat : DnsClass → Nat
  | .IN => 1
  | .CS => 2
  | .CH => 3
  | .HS => 4

/-- `TryFrom<u16> for Class` (macro `impl_try_from!`). -/
def DnsClass.tryFrom (v : Nat) : Except DnsError DnsClass :=
  match v with
  | 1 => .ok .IN
  | 2 => .ok .CS
  | 3 => .ok .CH
  | 4 => .ok .HS
  | _ => .error .invalidEnum

/-- Record types (`enum Type` in message.rs; renamed `RecordType` because `Type` is a Lean
keyword). -/
inductive RecordType where
  | A | NS | MD | MF | CName | Soa | MB | MG | MR | Null | Wks | Ptr | HInfo | MInfo | MX | Txt
deriving DecidableEq, Repr

/-- Numeric wire value of a record type (`Type as u16`). -/
def RecordType.toNat : RecordType → Nat
  | .A => 1 | .NS => 2 | .MD => 3 | .MF => 4 | .CName => 5 | .Soa => 6 | .MB => 7 | .MG => 8
  | .MR => 9 | .Null => 10 | .Wks => 11 | .Ptr => 12 | .HInfo => 13 | .MInfo => 14 | .MX => 15
  | .Txt => 16

/-- `TryFrom<u16> for Type` (macro `impl_try_from!`). -/
def RecordType.tryFrom (v : Nat) : Except DnsError RecordType :=
  match v with
  | 1 => .ok .A | 2 => .ok .NS | 3 => .ok .MD | 4 => .ok .MF | 5 => .ok .CName | 6 => .ok .Soa
  | 7 => .ok .MB | 8 => .ok .MG | 9 => .ok .MR | 10 => .ok .Null | 11 => .ok .Wks
  | 12 => .ok .Ptr | 13 => .ok .HInfo | 14 => .ok .MInfo | 15 => .ok .MX | 16 => .ok .Txt
  | _ => .error .invalidEnum

/-- `enum MessageType` in header.rs (QR bit). -/
inductive MessageType where
  | Query     -- 0
  | Response  -- 1
deriving DecidableEq, Repr

/-- Numeric value of the QR bit (`MessageType as u8`). -/
def MessageType.toNat : MessageType → Nat
  | .Query => 0
  | .Response => 1

/-- `TryFrom<u8> for MessageType`. -/
def MessageType.tryFrom (v : Nat) : Except DnsError MessageType :=
  match v with
  | 0 => .ok .Query
  | 1 => .ok .Response
  | _ => .error .invalidEnum

/-- `enum OpCode` in header.rs.  The reserved value 3 decodes to the distinct variant
`CodeCrafters`. -/
inductive OpCode where
  | Query        -- 0
  | IQuery       -- 1
  | Status       -- 2
  | CodeCrafters -- 3 (reserved/experimental)
deriving DecidableEq, Repr

/-- Numeric value of an opcode (`OpCode as u8`). -/
def OpCode.toNat : OpCode → Nat
  | .Query => 0
  | .IQuery => 1
  | .Status => 2
  | .CodeCrafters => 3

/-- `TryFrom<u8> for OpCode`. -/
def OpCode.tryFrom (v : Nat) : Except DnsError OpCode :=
  match v with
  | 0 => .ok .Query
  | 1 => .ok .IQuery
  | 2 => .ok .Status
  | 3 => .ok .CodeCrafters
  | _ => .error .invalidEnum

/-- `enum ResponseCode` in header.rs. -/
inductive ResponseCode where
  | NoError        -- 0
  | FormatError    -- 1
  | ServerFailure  -- 2
  | NameError      -- 3
  | NotImplemented -- 4
  | Refused        -- 5
deriving DecidableEq, Repr

/-- Numeric value of a response code (`ResponseCode as u8`). -/
def ResponseCode.toNat : ResponseCode → Nat
  | .NoError => 0
  | .FormatError => 1
  | .ServerFailure => 2
  | .NameError => 3
  | .NotImplemented => 4
  | .Refused => 5

/-- `TryFrom<u8> for ResponseCode`. -/
def ResponseCode.tryFrom (v : Nat) : Except DnsError ResponseCode :=
  match v with
  | 0 => .ok .NoError
  | 1 => .ok .FormatError
  | 2 => .ok .ServerFailure
  | 3 => .ok .NameError
  | 4 => .ok .NotImplemented
  | 5 => .ok .Refused
  | _ => .error .invalidEnum

/-- The fixed 12-octet message header (`struct Header` in header.rs). -/
structure Header where
  id : Nat                      -- u16
  message_type : MessageType    -- QR, 1 bit
  op_code : OpCode              -- 4 bits
  auth_answer : Bool            -- AA
  truncation : Bool             -- TC
  recursion_desired : Bool      -- RD
  recursion_available : Bool    -- RA
  z : Nat                       -- u8, reserved 3 bits
  response_code : ResponseCode  -- RCODE, 4 bits
  qd_count : Nat                -- u16
  an_count : Nat                -- u16
  ns_count : Nat                -- u16
  ar_count : Nat                -- u16
deriving DecidableEq, Repr

/-- `Header::default()`. -/
def Header.default : Header :=
  { id := 0, message_type := .Query, op_code := .Query, auth_answer := false,
    truncation := false, recursion_desired := false, recursion_available := false,
    z := 0, response_code := .NoError, qd_count := 0, an_count := 0, ns_count := 0,
    ar_count := 0 }

/-- `Header::build_reply` in header.rs. -/
def Header.build_reply (h : Header) : Header :=
  { h with
    message_type := .Response,
    -- "Ideally answering the same amount of questions"
    an_count := h.qd_count,
    response_code := match h.op_code with
      | .Query => .NoError
      | _ => .NotImplemented }

/-- Rust `b as u8` for a bool flag. -/
def boolBit (b : Bool) : Nat := if b then 1 else 0

/-- `Header::from_bytes` in header.rs.  The source receives a `[u8; 12]` array and indexes it
directly; the embedding reads the first twelve entries of the list (callers always pass
exactly twelve bytes). -/
def Header.from_bytes (buf : List Nat) : Except DnsError Header := do
  let b := fun i => buf.getD i 0
  let id := be16 (b 0) (b 1)
  let bit_qr := (b 2 &&& 0b10000000) >>> 7
  let message_type ← MessageType.tryFrom bit_qr
  let bits_op := (b 2 &&& 0b01111000) >>> 3
  let op_code ← OpCode.tryFrom bits_op
  let auth_answer := (b 2 &&& 0b00000100) >>> 2 ≠ 0
  let truncation := (b 2 &&& 0b00000010) >>> 1 ≠ 0
  let recursion_desired := (b 2 &&& 0b00000001) ≠ 0
  let recursion_available := (b 3 &&& 0b10000000) >>> 7 ≠ 0
  let z := (b 3 &&& 0b01110000) >>> 4
  let bits_rc := b 3 &&& 0b00001111
  let response_code ← ResponseCode.tryFrom bits_rc
  .ok { id, message_type, op_code, auth_answer, truncation, recursion_desired,
        recursion_available, z, response_code,
        qd_count := be16 (b 4) (b 5), an_count := be16 (b 6) (b 7),
        ns_count := be16 (b 8) (b 9), ar_count := be16 (b 10) (b 11) }

/-- `Header::to_bytes` in header.rs. -/
def Header.to_bytes (h : Header) : List Nat :=
  beBytes16 h.id ++
  [(h.message_type.toNat <<< 7) ||| (h.op_code.toNat <<< 3) ||| (boolBit h.auth_answer <<< 2) |||
     (boolBit h.truncation <<< 1) ||| boolBit h.recursion_desired,
   (boolBit h.recursion_available <<< 7) ||| ((h.z &&& 0b111) <<< 4) ||| h.response_code.toNat] ++
  beBytes16 h.qd_count ++ beBytes16 h.an_count ++ beBytes16 h.ns_count ++ beBytes16 h.ar_count

/-- Function `pointer` in message.rs: returns the offset to start reading the label from if the
byte pair is a compression pointer, otherwise `none`.  Note the source compares the first byte
against the exact value `0b11000000`, then removes the two top bits of the 16-bit pair by
XOR with `0xC000`. -/
def pointer (byte next : Nat) : Option Nat :=
  if byte ≠ 0b11000000 then none
  else some (((byte <<< 8) ||| next) ^^^ 0xC000)

/-- The label-reading loop shared by `parse_labels` in message.rs and (as an identical inline
copy) by `Question::from_bytes` in question.rs.  State: `current` is the local read position,
`labels` the labels collected so far, `next_pointer` the remembered resume position (set at the
first pointer), `jumps` the pointer-jump counter.  The Rust `while let Ok(len_byte) =
bytes.get(current)` exits the loop (without error) when `get` fails. -/
def parseLoop (bytes : RawMessage) (current : Nat) (labels : List (List Nat))
    (next_pointer : Option Nat) (jumps : Nat) : Except DnsError (List (List Nat) × Nat) :=
  match h : bytes.get current with
  | .error _ => .ok (labels, next_pointer.getD current)
  | .ok len_byte =>
    if len_byte = 0 then
      .ok (labels, next_pointer.getD (current + 1))
    else
      match bytes.get (current + 1) with
      | .error e => .error e
      | .ok next_byte =>
        match pointer len_byte next_byte with
        | some offset =>
          if jumps + 1 > 5 then .error .compressionLoop
          else
            parseLoop bytes offset labels
              (if jumps = 0 then some (current + 2) else next_pointer) (jumps + 1)
        | none =>
          match bytes.get_range (current + 1) (current + 1 + len_byte) with
          | .error e => .error e
          | .ok label =>
            if validUtf8 label then
              parseLoop bytes (current + 1 + len_byte) (labels ++ [label]) next_pointer jumps
            else .error .invalidUtf8
termination_by (6 - jumps, bytes.buffer.length - current)
decreasing_by
  · apply Prod.Lex.left
    omega
  · apply Prod.Lex.right'
    · omega
    · have hlt : current < bytes.buffer.length := by
        unfold RawMessage.get at h
        rcases heq : bytes.buffer.get? current with _ | b
        · rw [heq] at h; exact absurd h (by simp)
        · have := List.get?_eq_some.mp heq
          exact this.1
      omega

/-- `parse_labels` in message.rs: run the label loop from the cursor, join the labels with `.`,
and set the cursor to the resume position (after the first pointer) if a pointer was followed,
else to the loop's final position. -/
def parse_labels (bytes : RawMessage) : Except DnsError (List Nat × RawMessage) :=
  match parseLoop bytes bytes.currentPos [] none 0 with
  | .error e => .error e
  | .ok (labels, fin) => .ok (joinDot labels, { bytes with currentPos := fin })

/-- Uncompressed wire encoding of a name: one length-prefixed label per `.`-separated segment
(`label.len() as u8`, hence the `% 256`), then a terminating zero byte.  This is the
name-encoding fold shared by `Question::to_bytes` and `ResourceRecord::to_bytes`. -/
def encodeName (name : List Nat) : List Nat :=
  (splitOnDot name).flatMap (fun label => (label.length % 256) :: label) ++ [0]

/-- `struct Question` in question.rs (field `class` is a Lean keyword, renamed `class_`). -/
structure Question where
  name : List Nat
  qtype : RecordType
  class_ : DnsClass
deriving DecidableEq, Repr

/-- `Question::from_bytes` in question.rs: the inline label loop (identical to `parse_labels`),
then the 2-byte type and 2-byte class, both big-endian and validated by `TryFrom`. -/
def Question.from_bytes (bytes : RawMessage) : Except DnsError (Question × RawMessage) := do
  let (name, bytes) ← parse_labels bytes
  let (tb, bytes) ← bytes.current_and_advance_range 2
  let qtype ← RecordType.tryFrom (be16 (tb.getD 0 0) (tb.getD 1 0))
  let (cb, bytes) ← bytes.current_and_advance_range 2
  let class_ ← DnsClass.tryFrom (be16 (cb.getD 0 0) (cb.getD 1 0))
  .ok ({ name, qtype, class_ }, bytes)

/-- `Question::to_bytes` in question.rs. -/
def Question.to_bytes (q : Question) : List Nat :=
  encodeName q.name ++ beBytes16 q.qtype.toNat ++ beBytes16 q.class_.toNat

/-- IPv4 address (std::net::Ipv4Addr), four octets. -/
structure Ipv4Addr where
  o0 : Nat
  o1 : Nat
  o2 : Nat
  o3 : Nat
deriving DecidableEq, Repr

/-- `enum Data` in answer.rs (RDATA variants). -/
inductive Data where
  | none
  | IP (addr : Ipv4Addr)
deriving DecidableEq, Repr

/-- `struct ResourceRecord` in answer.rs. -/
structure ResourceRecord where
  name : List Nat
  atype : RecordType
  class_ : DnsClass
  ttl : Nat     -- u32
  length : Nat  -- u16
  data : Data
deriving DecidableEq, Repr

/-- The process-wide `domains()` table in answer.rs.  The source stores the addresses as the
dotted strings "8.8.8.8" and "1.1.1.1" and parses them with `Ipv4Addr::from_str(..).expect(..)`
at lookup (which cannot fail on those literals); the embedding stores the parsed addresses. -/
def domains : List (List Nat × Ipv4Addr) :=
  [(strBytes "codecrafters.io", ⟨8, 8, 8, 8⟩),
   (strBytes "another.codecrafters.io", ⟨1, 1, 1, 1⟩)]

/-- `ResourceRecord::answer_by_type` in answer.rs.  Only type A is supported; the
`unimplemented!("not implemented")` of every other type is a panic, modelled `.abort`. -/
def ResourceRecord.answer_by_type (qtype : RecordType) (name : List Nat) :
    Except DnsError ResourceRecord :=
  match qtype with
  | .A =>
    let ip := match domains.lookup name with
      | some ip => ip
      | Option.none => ⟨8, 8, 8, 8⟩
    .ok { name, atype := qtype, class_ := .IN, ttl := 60, length := 4, data := .IP ip }
  | _ => .error .abort

/-- `ResourceRecord::from_bytes` in answer.rs: name, 2-byte type, 2-byte class, 4-byte TTL,
2-byte rdata length, then exactly that many rdata bytes.  For type A the source builds
`Ipv4Addr::new(data[0], data[1], data[2], data[3])`: when the rdata slice holds fewer than
4 bytes this indexing panics (modelled `.abort`); bytes beyond the fourth are ignored. -/
def ResourceRecord.from_bytes (bytes : RawMessage) :
    Except DnsError (ResourceRecord × RawMessage) := do
  let (name, bytes) ← parse_labels bytes
  let (tb, bytes) ← bytes.current_and_advance_range 2
  let atype ← RecordType.tryFrom (be16 (tb.getD 0 0) (tb.getD 1 0))
  let (cb, bytes) ← bytes.current_and_advance_range 2
  let class_ ← DnsClass.tryFrom (be16 (cb.getD 0 0) (cb.getD 1 0))
  let (ttlb, bytes) ← bytes.current_and_advance_range 4
  let ttl := be32 (ttlb.getD 0 0) (ttlb.getD 1 0) (ttlb.getD 2 0) (ttlb.getD 3 0)
  let (lb, bytes) ← bytes.current_and_advance_range 2
  let length := be16 (lb.getD 0 0) (lb.getD 1 0)
  let (dataBytes, bytes) ← bytes.current_and_advance_range length
  let data ← match atype with
    | .A =>
      match dataBytes with
      | d0 :: d1 :: d2 :: d3 :: _ => Except.ok (Data.IP ⟨d0, d1, d2, d3⟩)
      | _ => Except.error DnsError.abort
    | _ => Except.ok Data.none
  .ok ({ name, atype, class_, ttl, length, data }, bytes)

/-- `ResourceRecord::to_bytes` in answer.rs. -/
def ResourceRecord.to_bytes (rr : ResourceRecord) : List Nat :=
  encodeName rr.name ++ beBytes16 rr.atype.toNat ++ beBytes16 rr.class_.toNat ++
    beBytes32 rr.ttl ++ beBytes16 rr.length ++
    (match rr.data with
     | .none => []
     | .IP ip => [ip.o0, ip.o1, ip.o2, ip.o3])

/-- `struct DNSMessage` in message.rs. -/
structure DNSMessage where
  header : Header
  question : Option (List Question)
  answer : Option (List ResourceRecord)
deriving DecidableEq, Repr

/-- `DNSMessage::default()`. -/
def DNSMessage.default : DNSMessage :=
  { header := Header.default, question := Option.none, answer := Option.none }

/-- `DNSMessage::answers()`: the header's answer count (not the list length). -/
def DNSMessage.answers (m : DNSMessage) : Nat := m.header.an_count

/-- `DNSMessage::questions()`: the header's question count (not the list length). -/
def DNSMessage.questions (m : DNSMessage) : Nat := m.header.qd_count

/-- The `for i in 0..count` decoding loops of `DNSMessage::from_bytes`: run a record parser
`count` times, collecting results in order. -/
def parseN {α : Type} (p : RawMessage → Except DnsError (α × RawMessage)) :
    Nat → RawMessage → Except DnsError (List α × RawMessage)
  | 0, bytes => .ok ([], bytes)
  | n + 1, bytes => do
    let (x, bytes) ← p bytes
    let (xs, bytes) ← parseN p n bytes
    .ok (x :: xs, bytes)

/-- `DNSMessage::from_bytes` in message.rs: require at least 12 octets, decode the header from
the first 12, then decode exactly `qd_count` questions and `an_count` answers with a shared
cursor starting at position 12.  (The `println!` logging of the source has no semantic
content.) -/
def DNSMessage.from_bytes (buf : List Nat) : Except DnsError DNSMessage :=
  if buf.length < 12 then .error .tooShort
  else do
    let header ← Header.from_bytes (buf.take 12)
    let raw : RawMessage := { buffer := buf, currentPos := 12 }
    let (question, raw) ←
      if header.qd_count ≠ 0 then do
        let (qs, raw) ← parseN Question.from_bytes header.qd_count raw
        pure (some qs, raw)
      else pure (Option.none, raw)
    let (answer, _) ←
      if header.an_count ≠ 0 then do
        let (ans, raw) ← parseN ResourceRecord.from_bytes header.an_count raw
        pure (some ans, raw)
      else pure (Option.none, raw)
    .ok { header, question, answer }

/-- `DNSMessage::to_bytes` in message.rs: header bytes, then each question, then each answer. -/
def DNSMessage.to_bytes (m : DNSMessage) : List Nat :=
  m.header.to_bytes ++
  (match m.question with
   | some qs => qs.flatMap Question.to_bytes
   | Option.none => []) ++
  (match m.answer with
   | some ans => ans.flatMap ResourceRecord.to_bytes
   | Option.none => [])

/-- `DNSMessage::add_answer` in message.rs: increment the header's answer count and push the
record. -/
def DNSMessage.add_answer (m : DNSMessage) (rr : ResourceRecord) : DNSMessage :=
  { m with
    header := { m.header with an_count := m.header.an_count + 1 },
    answer := match m.answer with
      | some ans => some (ans ++ [rr])
      | Option.none => some [rr] }

/-- `DNSMessage::build_reply` in message.rs: start from a default message whose header is
`Header::build_reply` of the original, `add_answer` one synthesized record per original
question, then copy the original question list.  `answer_by_type` may abort (type ≠ A). -/
def DNSMessage.build_reply (m : DNSMessage) : Except DnsError DNSMessage := do
  let reply := { DNSMessage.default with header := m.header.build_reply }
  let reply ←
    match m.question with
    | some qs =>
      qs.foldlM (fun r q => do
        let rr ← ResourceRecord.answer_by_type q.qtype q.name
        pure (r.add_answer rr)) reply
    | Option.none => pure reply
  .ok { reply with question := m.question }

/-- `struct Forwarder` in lib.rs.  The `destination : SocketAddr` field is opaque to all the
verified logic; it is modelled by a bare `Nat` tag. -/
structure Forwarder where
  destination : Nat
  message : DNSMessage
deriving DecidableEq, Repr

/-- `Forwarder::forward` in lib.rs: build a fresh message reusing the original header with
`qd_count` forced to 1, holding only the question at index `answers()`; the
`.expect("invalid questions lenght")` on a failed lookup is a panic, modelled `.abort`. -/
def Forwarder.forward (f : Forwarder) : Except DnsError (List Nat) :=
  let message := { DNSMessage.default with
                   header := { f.message.header with qd_count := 1 } }
  match f.message.question with
  | some q =>
    match q.get? f.message.answers with
    | some question => .ok ({ message with question := some [question] }).to_bytes
    | Option.none => .error .abort
  | Option.none => .ok message.to_bytes

/-- `Forwarder::add_answer` in lib.rs: decode the upstream reply; with at least one answer,
remove the first (`Vec::remove(0)` panics on an empty vector — unreachable from a decoded
message) and append it to the session message, then report whether collected answers now match
the questions; with no answers, report complete without touching the session. -/
def Forwarder.add_answer (f : Forwarder) (buf : List Nat) :
    Except DnsError (Bool × Forwarder) := do
  let reply ← DNSMessage.from_bytes buf
  match reply.answer with
  | some ans =>
    match ans with
    | [] => .error .abort
    | answer :: _ =>
      let message := f.message.add_answer answer
      .ok (message.questions == message.answers, { f with message })
  | Option.none => .ok (true, f)

/-- `Forwarder::build_reply` in lib.rs: transform the accumulated header via
`Header::build_reply` and serialize. -/
def Forwarder.build_reply (f : Forwarder) : List Nat × Forwarder :=
  let message := { f.message with header := f.message.header.build_reply }
  (message.to_bytes, { f with message })

/-- `parse_and_reply` in lib.rs. -/
def parse_and_reply (buf : List Nat) : Except DnsError (List Nat) := do
  let message ← DNSMessage.from_bytes buf
  let reply ← message.build_reply
  .ok reply.to_bytes

/-- `create_forwarder` in lib.rs. -/
def create_forwarder (buf : List Nat) (destination : Nat) : Except DnsError Forwarder := do
  let request ← DNSMessage.from_bytes buf
  .ok { destination, message := request }

/-- Modelled from the spec's words for claim C5: the position of "the *first* pointer
encountered" when reading a name at `current` — scan length-prefixed labels without following
any pointer and return the position of the first length byte that (with its successor) forms a
compression pointer, if the scan reaches one.  Used only as the independent reference point of
the cursor-resumption theorem. -/
def firstPtrScan (bytes : RawMessage) (current : Nat) : Option Nat :=
  match h : bytes.get current with
  | .error _ => none
  | .ok len_byte =>
    if len_byte = 0 then none
    else
      match bytes.get (current + 1) with
      | .error _ => none
      | .ok next_byte =>
        match pointer len_byte next_byte with
        | some _ => some current
        | none => firstPtrScan bytes (current + 1 + len_byte)
termination_by bytes.buffer.length - current
decreasing_by
  have hlt : current < bytes.buffer.length := by
    unfold RawMessage.get at h
    rcases heq : bytes.buffer.get? current with _ | b
    · rw [heq] at h; exact absurd h (by simp)
    · exact (List.get?_eq_some.mp heq).1
  omega

/-- Outcome of scanning a name at a given position without following any pointer, used as the
independent reference point of the cursor-resumption theorem for claim C5.  Exactly one of:
the position of the first compression pointer encountered; the position of the name's
terminating zero byte; the exact position at which the scan ran past the end of the buffer
while looking for the next length byte; or a malformed name (a nonzero length byte with no
byte after it), on which the decoder always fails. -/
inductive NameScan where
  | ptr (p : Nat)
  | term (z : Nat)
  | offEnd (e : Nat)
  | bad
deriving DecidableEq, Repr

/-- Modelled from the spec's words for claim C5: scan length-prefixed labels from `current`
without following any pointer, reporting where the scan ends — at the first pointer, at the
name's terminating zero byte, past the end of the buffer, or at a malformed label.  The
stepping is exactly that of the decoding loop before any pointer is taken. -/
def nameScan (bytes : RawMessage) (current : Nat) : NameScan :=
  match h : bytes.get current with
  | .error _ => .offEnd current
  | .ok len_byte =>
    if len_byte = 0 then .term current
    else
      match bytes.get (current + 1) with
      | .error _ => .bad
      | .ok next_byte =>
        match pointer len_byte next_byte with
        | some _ => .ptr current
        | none => nameScan bytes (current + 1 + len_byte)
termination_by bytes.buffer.length - current
decreasing_by
  have hlt : current < bytes.buffer.length := by
    unfold RawMessage.get at h
    rcases heq : bytes.buffer.get? current with _ | b
    · rw [heq] at h; exact absurd h (by simp)
    · exact (List.get?_eq_some.mp heq).1
  omega

/-- Test-harness buffer family for the pointer-jump bound: `ptrChain n` is `n` consecutive
2-byte compression pointers, the first targeting offset 0 and each later one targeting the
pointer before it.  Laid out after the 3-byte prefix of `chainBuf`, pointer `j` (1-based)
sits at offset `2*j + 1` and targets offset `2*j - 1` (offset 0 for `j = 1`). -/
def ptrChain : Nat → List Nat
  | 0 => []
  | n + 1 => ptrChain n ++ [192, if n = 0 then 0 else 2 * n + 1]

/-- Buffer holding the label `"a"` terminated at offset 0, followed by `ptrChain n`; decoding a
name starting at the last pointer (offset `2*n + 1`) follows a chain of exactly `n` pointers
before reaching the label. -/
def chainBuf (n : Nat) : List Nat := [1, 97, 0] ++ ptrChain n

/-- Well-formedness of a domain name for the round-trip property: every `.`-separated label is
non-empty, fits a DNS label (at most 63 bytes, so its length byte is neither 0, nor the pointer
tag 192, nor truncated by the `as u8` cast) and is valid text. -/
def wellFormedName (name : List Nat) : Bool :=
  (splitOnDot name).all fun l => !l.isEmpty && decide (l.length ≤ 63) && validUtf8 l

/-- Well-formedness of a header: the `u16`/3-bit typing invariants of the Rust fields. -/
def wellFormedHeader (h : Header) : Bool :=
  decide (h.id < 65536) && decide (h.z < 8) && decide (h.qd_count < 65536) &&
    decide (h.an_count < 65536) && decide (h.ns_count < 65536) && decide (h.ar_count < 65536)

/-- Well-formedness of a question: its name is well-formed (type and class are closed enums). -/
def wellFormedQuestion (q : Question) : Bool :=
  wellFormedName q.name

/-- Well-formedness of a resource record: well-formed name, `u32` TTL, and coherent rdata: an
address record carries an IP with octet values and declared length 4, any other record carries
no structured data and declared length 0 (the encoder emits no rdata bytes for `Data::None`,
so a nonzero declared length could not round-trip). -/
def wellFormedRR (rr : ResourceRecord) : Bool :=
  wellFormedName rr.name && decide (rr.ttl < 4294967296) &&
  (match rr.data with
   | .IP ip =>
     decide (rr.atype = .A) && decide (rr.length = 4) && decide (ip.o0 < 256) &&
       decide (ip.o1 < 256) && decide (ip.o2 < 256) && decide (ip.o3 < 256)
   | .none => decide (rr.atype ≠ .A) && decide (rr.length = 0))

/-- Well-formedness of a whole message: well-formed header, counts equal to the lengths of the
lists held, empty sections represented by `None` (as the decoder produces them), and
well-formed entries. -/
def wellFormedMessage (m : DNSMessage) : Bool :=
  wellFormedHeader m.header &&
  (match m.question with
   | some qs => decide (m.header.qd_count = qs.length) && !qs.isEmpty && qs.all wellFormedQuestion
   | Option.none => decide (m.header.qd_count = 0)) &&
  (match m.answer with
   | some ans => decide (m.header.an_count = ans.length) && !ans.isEmpty && ans.all wellFormedRR
   | Option.none => decide (m.header.an_count = 0))

deriving instance DecidableEq for Except

/-! Step lemmas for the label loop: one equation per branch of `parseLoop`, used both to
evaluate concrete buffers and to reason symbolically in the round-trip proofs. -/

/-- Loop exit by a failing read (the `while let` guard). -/
theorem parseLoop_oob {bytes : RawMessage} {current : Nat} {labels : List (List Nat)}
    {np : Option Nat} {j : Nat} {e : DnsError} (h : bytes.get current = .error e) :
    parseLoop bytes current labels np j = .ok (labels, np.getD current) := by
  rw [parseLoop.eq_def, h]

/-- Loop exit at a zero length byte. -/
theorem parseLoop_zero {bytes : RawMessage} {current : Nat} {labels : List (List Nat)}
    {np : Option Nat} {j : Nat} (h : bytes.get current = .ok 0) :
    parseLoop bytes current labels np j = .ok (labels, np.getD (current + 1)) := by
  rw [parseLoop.eq_def, h]
  simp

/-- Error propagation of the `?` on the read of the byte after a nonzero length byte. -/
theorem parseLoop_next_err {bytes : RawMessage} {current : Nat} {labels : List (List Nat)}
    {np : Option Nat} {j len : Nat} {e : DnsError} (h : bytes.get current = .ok len)
    (h0 : len ≠ 0) (h1 : bytes.get (current + 1) = .error e) :
    parseLoop bytes current labels np j = .error e := by
  rw [parseLoop.eq_def, h]
  simp [h0, h1]

/-- Taking a compression pointer within the jump budget. -/
theorem parseLoop_ptr {bytes : RawMessage} {current : Nat} {labels : List (List Nat)}
    {np : Option Nat} {j len nb off : Nat} (h : bytes.get current = .ok len) (h0 : len ≠ 0)
    (h1 : bytes.get (current + 1) = .ok nb) (hp : pointer len nb = some off)
    (hj : j + 1 ≤ 5) :
    parseLoop bytes current labels np j =
      parseLoop bytes off labels (if j = 0 then some (current + 2) else np) (j + 1) := by
  rw [parseLoop.eq_def, h]
  simp only [h0, if_false, h1, hp]
  rw [if_neg (by omega)]

/-- The sixth pointer jump fails with the compression-loop error. -/
theorem parseLoop_ptr_loop {bytes : RawMessage} {current : Nat} {labels : List (List Nat)}
    {np : Option Nat} {j len nb off : Nat} (h : bytes.get current = .ok len) (h0 : len ≠ 0)
    (h1 : bytes.get (current + 1) = .ok nb) (hp : pointer len nb = some off)
    (hj : j + 1 > 5) :
    parseLoop bytes current labels np j = .error .compressionLoop := by
  rw [parseLoop.eq_def, h]
  simp only [h0, if_false, h1, hp]
  rw [if_pos hj]

/-- Reading one literal label and continuing. -/
theorem parseLoop_label {bytes : RawMessage} {current : Nat} {labels : List (List Nat)}
    {np : Option Nat} {j len nb : Nat} {label : List Nat} (h : bytes.get current = .ok len)
    (h0 : len ≠ 0) (h1 : bytes.get (current + 1) = .ok nb) (hp : pointer len nb = none)
    (hr : bytes.get_range (current + 1) (current + 1 + len) = .ok label)
    (hv : validUtf8 label = true) :
    parseLoop bytes current labels np j =
      parseLoop bytes (current + 1 + len) (labels ++ [label]) np j := by
  rw [parseLoop.eq_def, h]
  simp only [h0, if_false, h1, hp, hr, hv, if_true]

/-- Failure of the label range read. -/
theorem parseLoop_range_err {bytes : RawMessage} {current : Nat} {labels : List (List Nat)}
    {np : Option Nat} {j len nb : Nat} {e : DnsError} (h : bytes.get current = .ok len)
    (h0 : len ≠ 0) (h1 : bytes.get (current + 1) = .ok nb) (hp : pointer len nb = none)
    (hr : bytes.get_range (current + 1) (current + 1 + len) = .error e) :
    parseLoop bytes current labels np j = .error e := by
  rw [parseLoop.eq_def, h]
  simp only [h0, if_false, h1, hp, hr]

/-- Failure of the UTF-8 check on a label. -/
theorem parseLoop_utf8_err {bytes : RawMessage} {current : Nat} {labels : List (List Nat)}
    {np : Option Nat} {j len nb : Nat} {label : List Nat} (h : bytes.get current = .ok len)
    (h0 : len ≠ 0) (h1 : bytes.get (current + 1) = .ok nb) (hp : pointer len nb = none)
    (hr : bytes.get_range (current + 1) (current + 1 + len) = .ok label)
    (hv : validUtf8 label = false) :
    parseLoop bytes current labels np j = .error .invalidUtf8 := by
  rw [parseLoop.eq_def, h]
  simp only [h0, if_false, h1, hp, hr, hv]
  simp

set_option maxRecDepth 8000
set_option maxHeartbeats 1000000

/-! Generic helper lemmas about buffers, byte arithmetic and the small enum codecs. -/

/-- Characterization of a successful `RawMessage::get`. -/
theorem RawMessage.get_eq_ok {m : RawMessage} {n b : Nat} :
    m.get n = .ok b ↔ m.buffer.get? n = some b := by
  unfold RawMessage.get
  rcases h : m.buffer.get? n with _ | c <;> simp

/-- Reading at an offset past a known prefix. -/
theorem RawMessage.get_append {pre rest : List Nat} {k b : Nat} (cp : Nat)
    (h : rest.get? k = some b) :
    RawMessage.get ⟨pre ++ rest, cp⟩ (pre.length + k) = .ok b := by
  rw [RawMessage.get_eq_ok]
  show (pre ++ rest).get? (pre.length + k) = some b
  rw [List.get?_append_right (by omega)]
  simpa [Nat.add_sub_cancel_left] using h

/-- `current_and_advance_range` at the boundary of a known prefix. -/
theorem RawMessage.advance_append {pre rest : List Nat} {n : Nat} (h : n ≤ rest.length) :
    RawMessage.current_and_advance_range ⟨pre ++ rest, pre.length⟩ n =
      .ok (rest.take n, ⟨pre ++ rest, pre.length + n⟩) := by
  unfold RawMessage.current_and_advance_range
  have hlen : (pre ++ rest).length = pre.length + rest.length := by simp
  rw [if_neg (by simp [hlen]; omega)]
  simp [List.drop_left]

/-- `get_range` of a slice that begins at the boundary of a known prefix. -/
theorem RawMessage.get_range_append {pre rest : List Nat} {n : Nat} (cp : Nat)
    (h : n ≤ rest.length) :
    RawMessage.get_range ⟨pre ++ rest, cp⟩ pre.length (pre.length + n) = .ok (rest.take n) := by
  unfold RawMessage.get_range
  rw [if_pos (by constructor <;> simp <;> omega)]
  simp [List.drop_left]

/-- Two-byte big-endian round trip for a `u16` value. -/
theorem be16_beBytes16 {t : Nat} (h : t < 65536) :
    be16 ((beBytes16 t).getD 0 0) ((beBytes16 t).getD 1 0) = t := by
  simp [be16, beBytes16]
  omega

/-- Four-byte big-endian round trip for a `u32` value. -/
theorem be32_beBytes32 {t : Nat} (h : t < 4294967296) :
    be32 ((beBytes32 t).getD 0 0) ((beBytes32 t).getD 1 0) ((beBytes32 t).getD 2 0)
      ((beBytes32 t).getD 3 0) = t := by
  simp [be32, beBytes32]
  omega

/-- Decoding the encoded numeric value of a record type. -/
theorem recordType_tryFrom_toNat (t : RecordType) : RecordType.tryFrom t.toNat = .ok t := by
  cases t <;> rfl

/-- Decoding the encoded numeric value of a class. -/
theorem dnsClass_tryFrom_toNat (c : DnsClass) : DnsClass.tryFrom c.toNat = .ok c := by
  cases c <;> rfl

/-- Record-type wire values fit a `u16`. -/
theorem recordType_toNat_lt (t : RecordType) : t.toNat < 65536 := by cases t <;> decide

/-- DnsClass wire values fit a `u16`. -/
theorem dnsClass_toNat_lt (c : DnsClass) : c.toNat < 65536 := by cases c <;> decide

/-- Splitting never produces an empty list of pieces. -/
theorem splitOnDot_ne_nil (bs : List Nat) : splitOnDot bs ≠ [] := by
  cases bs with
  | nil => simp [splitOnDot]
  | cons b rest =>
    unfold splitOnDot
    rcases h : splitOnDot rest with _ | ⟨p, ps⟩ <;> simp
    split <;> simp

/-- Joining the pieces of a split returns the original byte string
(Rust `v.split('.').join(".") == v`). -/
theorem joinDot_splitOnDot (bs : List Nat) : joinDot (splitOnDot bs) = bs := by
  induction bs with
  | nil => rfl
  | cons b rest ih =>
    rcases h : splitOnDot rest with _ | ⟨p, ps⟩
    · exact absurd h (splitOnDot_ne_nil rest)
    · rw [h] at ih
      by_cases hb : b = 46
      · subst hb
        have hs : splitOnDot (46 :: rest) = [] :: p :: ps := by
          unfold splitOnDot; rw [h]; simp
        rw [hs]
        simpa [joinDot] using ih
      · have hs : splitOnDot (b :: rest) = (b :: p) :: ps := by
          unfold splitOnDot; rw [h]; simp [hb]
        rw [hs]
        rcases ps with _ | ⟨p2, ps2⟩ <;> simp_all [joinDot]

/-- A byte different from the pointer tag never forms a pointer. -/
theorem pointer_ne {b nb : Nat} (h : b ≠ 192) : pointer b nb = none := by
  simp [pointer, h]

/-- Every byte pair whose first byte is the exact tag 192 forms a pointer whose offset is the
second byte. -/
theorem pointer_192 : ∀ t, t < 256 → pointer 192 t = some t := by decide

/-- Reading a whole encoded label block: starting at the first length byte of an uncompressed
label sequence followed by the terminating zero, the loop collects exactly those labels and
stops just past the zero byte, never touching the pointer or error branches. -/
theorem parseLoop_block (L : List (List Nat)) :
    ∀ (pre suf : List Nat) (acc : List (List Nat)) (cp j : Nat),
    (∀ l ∈ L, l ≠ [] ∧ l.length ≤ 63 ∧ validUtf8 l = true) →
    parseLoop ⟨pre ++ ((L.flatMap fun label => (label.length % 256) :: label) ++ [0]) ++ suf, cp⟩
        pre.length acc none j
      = .ok (acc ++ L,
             pre.length + (L.flatMap fun label => (label.length % 256) :: label).length + 1) := by
  induction L with
  | nil =>
    intro pre suf acc cp j _
    have hB : pre ++ (([] : List (List Nat)).flatMap
        (fun label => (label.length % 256) :: label) ++ [0]) ++ suf = pre ++ 0 :: suf := by
      simp
    rw [hB]
    have hget0 : RawMessage.get ⟨pre ++ 0 :: suf, cp⟩ pre.length = .ok 0 := by
      simpa using @RawMessage.get_append pre (0 :: suf) 0 _ cp rfl
    rw [parseLoop_zero hget0]
    simp
  | cons l ls ih =>
    intro pre suf acc cp j hL
    obtain ⟨hne, hlen, hutf⟩ := hL l (List.mem_cons_self l ls)
    have hmod : l.length % 256 = l.length := Nat.mod_eq_of_lt (by omega)
    obtain ⟨b, ltl, hl⟩ : ∃ b ltl, l = b :: ltl := by
      cases l with
      | nil => exact absurd rfl hne
      | cons b ltl => exact ⟨b, ltl, rfl⟩
    set lsFlat := ls.flatMap (fun label => (label.length % 256) :: label) with hlsFlat
    have hB : pre ++ (((l :: ls).flatMap fun label => (label.length % 256) :: label) ++ [0]) ++ suf
        = pre ++ l.length :: (l ++ (lsFlat ++ 0 :: suf)) := by
      simp [hmod]
    rw [hB]
    have hget0 : RawMessage.get ⟨pre ++ l.length :: (l ++ (lsFlat ++ 0 :: suf)), cp⟩
        pre.length = .ok l.length := by
      simpa using
        @RawMessage.get_append pre (l.length :: (l ++ (lsFlat ++ 0 :: suf))) 0 _ cp rfl
    have hget1 : RawMessage.get ⟨pre ++ l.length :: (l ++ (lsFlat ++ 0 :: suf)), cp⟩
        (pre.length + 1) = .ok b := by
      apply RawMessage.get_append (k := 1) cp
      simp [hl]
    have hrange : RawMessage.get_range ⟨pre ++ l.length :: (l ++ (lsFlat ++ 0 :: suf)), cp⟩
        (pre.length + 1) (pre.length + 1 + l.length) = .ok l := by
      have h2 := @RawMessage.get_range_append (pre ++ [l.length])
        (l ++ (lsFlat ++ 0 :: suf)) l.length cp (by simp)
      rw [List.take_left] at h2
      simpa using h2
    rw [parseLoop_label hget0 (by simp [hl]) hget1 (pointer_ne (by omega)) hrange hutf]
    have hpre2 : pre.length + 1 + l.length = (pre ++ l.length :: l).length := by
      simp only [List.length_append, List.length_cons]
      omega
    have hB2 : pre ++ l.length :: (l ++ (lsFlat ++ 0 :: suf))
        = (pre ++ l.length :: l) ++ (lsFlat ++ [0]) ++ suf := by simp
    rw [hpre2, hB2]
    rw [ih (pre ++ l.length :: l) suf (acc ++ [l]) cp j
      (fun x hx => hL x (List.mem_cons_of_mem l hx))]
    simp only [Except.ok.injEq, Prod.mk.injEq]
    constructor
    · simp
    · simp only [List.flatMap_cons, ← hlsFlat, List.length_append, List.length_cons]
      generalize lsFlat.length = S
      omega

theorem byte2_bits (mt : MessageType) (op : OpCode) (aa tc rd : Bool) :
    MessageType.tryFrom ((((mt.toNat <<< 7) ||| (op.toNat <<< 3) ||| (boolBit aa <<< 2) |||
        (boolBit tc <<< 1) ||| boolBit rd) &&& 0b10000000) >>> 7) = .ok mt ∧
    OpCode.tryFrom ((((mt.toNat <<< 7) ||| (op.toNat <<< 3) ||| (boolBit aa <<< 2) |||
        (boolBit tc <<< 1) ||| boolBit rd) &&& 0b01111000) >>> 3) = .ok op ∧
    decide ((((mt.toNat <<< 7) ||| (op.toNat <<< 3) ||| (boolBit aa <<< 2) |||
        (boolBit tc <<< 1) ||| boolBit rd) &&& 0b00000100) >>> 2 ≠ 0) = aa ∧
    decide ((((mt.toNat <<< 7) ||| (op.toNat <<< 3) ||| (boolBit aa <<< 2) |||
        (boolBit tc <<< 1) ||| boolBit rd) &&& 0b00000010) >>> 1 ≠ 0) = tc ∧
    decide ((((mt.toNat <<< 7) ||| (op.toNat <<< 3) ||| (boolBit aa <<< 2) |||
        (boolBit tc <<< 1) ||| boolBit rd) &&& 0b00000001) ≠ 0) = rd := by
  cases mt <;> cases op <;> cases aa <;> cases tc <;> cases rd <;> decide

theorem byte3_bits (ra : Bool) (z : Nat) (rc : ResponseCode) (hz : z < 8) :
    decide ((((boolBit ra <<< 7) ||| ((z &&& 0b111) <<< 4) ||| rc.toNat) &&& 0b10000000) >>> 7
        ≠ 0) = ra ∧
    (((boolBit ra <<< 7) ||| ((z &&& 0b111) <<< 4) ||| rc.toNat) &&& 0b01110000) >>> 4 = z ∧
    ResponseCode.tryFrom (((boolBit ra <<< 7) ||| ((z &&& 0b111) <<< 4) ||| rc.toNat) &&&
        0b00001111) = .ok rc := by
  interval_cases z <;> cases ra <;> cases rc <;> decide

theorem header_from_bytes_to_bytes (h : Header) (hw : wellFormedHeader h = true) :
    Header.from_bytes h.to_bytes = .ok h := by
  obtain ⟨id, mt, op, aa, tc, rd, ra, z, rc, qd, an, ns, ar⟩ := h
  simp only [wellFormedHeader, Bool.and_eq_true, decide_eq_true_eq] at hw
  obtain ⟨⟨⟨⟨⟨hid, hz⟩, hqd⟩, han⟩, hns⟩, har⟩ := hw
  obtain ⟨e1, e2, e3, e4, e5⟩ := byte2_bits mt op aa tc rd
  obtain ⟨f1, f2, f3⟩ := byte3_bits ra z rc hz
  simp only [Header.from_bytes, Header.to_bytes, beBytes16, List.cons_append, List.nil_append,
    List.getD_cons_zero, List.getD_cons_succ, bind, Except.bind, e1, e2, e3, e4, e5, f1, f2, f3,
    be16]
  simp only [Except.ok.injEq, Header.mk.injEq, and_true, true_and]
  omega

theorem wellFormedName_labels {name : List Nat} (hw : wellFormedName name = true) :
    ∀ l ∈ splitOnDot name, l ≠ [] ∧ l.length ≤ 63 ∧ validUtf8 l = true := by
  intro l hlmem
  have h1 := (List.all_eq_true.mp hw) l hlmem
  simp only [Bool.and_eq_true, Bool.not_eq_true', decide_eq_true_eq] at h1
  refine ⟨?_, h1.1.2, h1.2⟩
  intro hnil
  subst hnil
  simpa using h1.1.1

theorem parse_labels_at (name pre suf : List Nat) (hw : wellFormedName name = true) :
    parse_labels ⟨pre ++ encodeName name ++ suf, pre.length⟩ =
      .ok (name, ⟨pre ++ encodeName name ++ suf, pre.length + (encodeName name).length⟩) := by
  have hb := parseLoop_block (splitOnDot name) pre suf [] pre.length 0 (wellFormedName_labels hw)
  unfold parse_labels
  have hBuf : pre ++ encodeName name ++ suf
      = pre ++ (((splitOnDot name).flatMap fun label => (label.length % 256) :: label) ++ [0])
          ++ suf := by
    simp [encodeName]
  rw [hBuf]
  show (match parseLoop ⟨_, pre.length⟩ pre.length [] none 0 with
    | .error e => Except.error e
    | .ok (labels, fin) => Except.ok (joinDot labels, _)) = _
  rw [hb]
  simp only [List.nil_append, joinDot_splitOnDot, encodeName, List.length_append,
    List.length_cons, List.length_nil, Except.ok.injEq, Prod.mk.injEq, RawMessage.mk.injEq]
  refine ⟨trivial, trivial, by omega⟩

theorem take2_beBytes16 (v : Nat) (tail : List Nat) :
    (beBytes16 v ++ tail).take 2 = beBytes16 v := by
  simp [beBytes16]

theorem take4_beBytes32 (v : Nat) (tail : List Nat) :
    (beBytes32 v ++ tail).take 4 = beBytes32 v := by
  simp [beBytes32]

theorem question_from_bytes_at (q : Question) (pre suf : List Nat)
    (hw : wellFormedQuestion q = true) :
    Question.from_bytes ⟨pre ++ q.to_bytes ++ suf, pre.length⟩ =
      .ok (q, ⟨pre ++ q.to_bytes ++ suf, pre.length + q.to_bytes.length⟩) := by
  obtain ⟨name, qtype, class_⟩ := q
  have hwn : wellFormedName name = true := hw
  rw [Question.from_bytes]
  have hB1 : pre ++ Question.to_bytes ⟨name, qtype, class_⟩ ++ suf
      = pre ++ encodeName name ++ (beBytes16 qtype.toNat ++ (beBytes16 class_.toNat ++ suf)) := by
    simp [Question.to_bytes]
  rw [hB1, parse_labels_at name pre _ hwn]
  simp only [bind, Except.bind]
  have hp1 : pre.length + (encodeName name).length = (pre ++ encodeName name).length := by simp
  rw [hp1, @RawMessage.advance_append (pre ++ encodeName name)
    (beBytes16 qtype.toNat ++ (beBytes16 class_.toNat ++ suf)) 2
    (by simp [beBytes16]), take2_beBytes16]
  simp only []
  rw [be16_beBytes16 (recordType_toNat_lt qtype), recordType_tryFrom_toNat]
  simp only []
  have hB3 : (pre ++ encodeName name) ++ (beBytes16 qtype.toNat ++ (beBytes16 class_.toNat ++ suf))
      = ((pre ++ encodeName name) ++ beBytes16 qtype.toNat) ++ (beBytes16 class_.toNat ++ suf) := by
    simp
  have hp3 : (pre ++ encodeName name).length + 2
      = ((pre ++ encodeName name) ++ beBytes16 qtype.toNat).length := by
    simp only [List.length_append, beBytes16, List.length_cons, List.length_nil]
  rw [hB3, hp3, @RawMessage.advance_append ((pre ++ encodeName name) ++ beBytes16 qtype.toNat)
    (beBytes16 class_.toNat ++ suf) 2 (by simp [beBytes16]), take2_beBytes16]
  simp only []
  rw [be16_beBytes16 (dnsClass_toNat_lt class_), dnsClass_tryFrom_toNat]
  simp only []
  simp [Question.to_bytes, beBytes16, encodeName] <;> omega

theorem rr_from_bytes_at (rr : ResourceRecord) (pre suf : List Nat)
    (hw : wellFormedRR rr = true) :
    ResourceRecord.from_bytes ⟨pre ++ rr.to_bytes ++ suf, pre.length⟩ =
      .ok (rr, ⟨pre ++ rr.to_bytes ++ suf, pre.length + rr.to_bytes.length⟩) := by
  obtain ⟨name, atype, class_, ttl, length, data⟩ := rr
  rcases data with _ | ⟨o0, o1, o2, o3⟩
  · -- Data.none: no structured rdata, declared length 0
    simp only [wellFormedRR, Bool.and_eq_true, decide_eq_true_eq] at hw
    obtain ⟨⟨hname, httl⟩, hA, hlen⟩ := hw
    subst hlen
    rw [ResourceRecord.from_bytes]
    have hB1 : pre ++ ResourceRecord.to_bytes ⟨name, atype, class_, ttl, 0, .none⟩ ++ suf
        = pre ++ encodeName name ++ (beBytes16 atype.toNat ++ (beBytes16 class_.toNat ++
            (beBytes32 ttl ++ (beBytes16 0 ++ suf)))) := by
      simp [ResourceRecord.to_bytes]
    rw [hB1, parse_labels_at name pre _ hname]
    simp only [bind, Except.bind]
    have hp1 : pre.length + (encodeName name).length = (pre ++ encodeName name).length := by simp
    rw [hp1, RawMessage.advance_append (n := 2) (by simp [beBytes16]), take2_beBytes16]
    simp only []
    rw [be16_beBytes16 (recordType_toNat_lt atype), recordType_tryFrom_toNat]
    simp only []
    have hB3 : (pre ++ encodeName name) ++ (beBytes16 atype.toNat ++ (beBytes16 class_.toNat ++
          (beBytes32 ttl ++ (beBytes16 0 ++ suf))))
        = ((pre ++ encodeName name) ++ beBytes16 atype.toNat) ++ (beBytes16 class_.toNat ++
            (beBytes32 ttl ++ (beBytes16 0 ++ suf))) := by simp
    have hp3 : (pre ++ encodeName name).length + 2
        = ((pre ++ encodeName name) ++ beBytes16 atype.toNat).length := by
      simp only [List.length_append, beBytes16, List.length_cons, List.length_nil]
    rw [hB3, hp3, RawMessage.advance_append (n := 2) (by simp [beBytes16]), take2_beBytes16]
    simp only []
    rw [be16_beBytes16 (dnsClass_toNat_lt class_), dnsClass_tryFrom_toNat]
    simp only []
    have hB4 : ((pre ++ encodeName name) ++ beBytes16 atype.toNat) ++ (beBytes16 class_.toNat ++
          (beBytes32 ttl ++ (beBytes16 0 ++ suf)))
        = (((pre ++ encodeName name) ++ beBytes16 atype.toNat) ++ beBytes16 class_.toNat) ++
            (beBytes32 ttl ++ (beBytes16 0 ++ suf)) := by simp
    have hp4 : ((pre ++ encodeName name) ++ beBytes16 atype.toNat).length + 2
        = (((pre ++ encodeName name) ++ beBytes16 atype.toNat) ++ beBytes16 class_.toNat).length := by
      simp only [List.length_append, beBytes16, List.length_cons, List.length_nil]
    rw [hB4, hp4, RawMessage.advance_append (n := 4) (by simp [beBytes32]), take4_beBytes32]
    simp only []
    rw [be32_beBytes32 httl]
    have hB5 : (((pre ++ encodeName name) ++ beBytes16 atype.toNat) ++ beBytes16 class_.toNat) ++
          (beBytes32 ttl ++ (beBytes16 0 ++ suf))
        = ((((pre ++ encodeName name) ++ beBytes16 atype.toNat) ++ beBytes16 class_.toNat) ++
            beBytes32 ttl) ++ (beBytes16 0 ++ suf) := by simp
    have hp5 : (((pre ++ encodeName name) ++ beBytes16 atype.toNat) ++
          beBytes16 class_.toNat).length + 4
        = ((((pre ++ encodeName name) ++ beBytes16 atype.toNat) ++ beBytes16 class_.toNat) ++
            beBytes32 ttl).length := by
      simp only [List.length_append, beBytes16, beBytes32, List.length_cons, List.length_nil]
    rw [hB5, hp5, RawMessage.advance_append (n := 2) (by simp [beBytes16]), take2_beBytes16]
    simp only []
    rw [be16_beBytes16 (by omega : (0:Nat) < 65536)]
    have hB6 : ((((pre ++ encodeName name) ++ beBytes16 atype.toNat) ++ beBytes16 class_.toNat) ++
          beBytes32 ttl) ++ (beBytes16 0 ++ suf)
        = (((((pre ++ encodeName name) ++ beBytes16 atype.toNat) ++ beBytes16 class_.toNat) ++
            beBytes32 ttl) ++ beBytes16 0) ++ suf := by simp
    have hp6 : ((((pre ++ encodeName name) ++ beBytes16 atype.toNat) ++ beBytes16 class_.toNat) ++
          beBytes32 ttl).length + 2
        = (((((pre ++ encodeName name) ++ beBytes16 atype.toNat) ++ beBytes16 class_.toNat) ++
            beBytes32 ttl) ++ beBytes16 0).length := by
      simp only [List.length_append, beBytes16, beBytes32, List.length_cons, List.length_nil]
    rw [hB6, hp6, RawMessage.advance_append (n := 0) (by simp), List.take_zero]
    simp only []
    cases atype <;> simp_all [ResourceRecord.to_bytes, beBytes16, beBytes32, encodeName]
  · -- Data.IP: address record, declared length 4, four rdata octets
    simp only [wellFormedRR, Bool.and_eq_true, decide_eq_true_eq] at hw
    obtain ⟨⟨hname, httl⟩, ⟨⟨⟨⟨⟨hA, hlen⟩, ho0⟩, ho1⟩, ho2⟩, ho3⟩⟩ := hw
    subst hA
    subst hlen
    rw [ResourceRecord.from_bytes]
    have hB1 : pre ++ ResourceRecord.to_bytes ⟨name, .A, class_, ttl, 4, .IP ⟨o0, o1, o2, o3⟩⟩ ++ suf
        = pre ++ encodeName name ++ (beBytes16 RecordType.A.toNat ++ (beBytes16 class_.toNat ++
            (beBytes32 ttl ++ (beBytes16 4 ++ ([o0, o1, o2, o3] ++ suf))))) := by
      simp [ResourceRecord.to_bytes]
    rw [hB1, parse_labels_at name pre _ hname]
    simp only [bind, Except.bind]
    have hp1 : pre.length + (encodeName name).length = (pre ++ encodeName name).length := by simp
    rw [hp1, RawMessage.advance_append (n := 2) (by simp [beBytes16]), take2_beBytes16]
    simp only []
    rw [be16_beBytes16 (recordType_toNat_lt .A), recordType_tryFrom_toNat]
    simp only []
    have hB3 : (pre ++ encodeName name) ++ (beBytes16 RecordType.A.toNat ++
          (beBytes16 class_.toNat ++ (beBytes32 ttl ++ (beBytes16 4 ++ ([o0, o1, o2, o3] ++ suf)))))
        = ((pre ++ encodeName name) ++ beBytes16 RecordType.A.toNat) ++ (beBytes16 class_.toNat ++
            (beBytes32 ttl ++ (beBytes16 4 ++ ([o0, o1, o2, o3] ++ suf)))) := by simp
    have hp3 : (pre ++ encodeName name).length + 2
        = ((pre ++ encodeName name) ++ beBytes16 RecordType.A.toNat).length := by
      simp only [List.length_append, beBytes16, List.length_cons, List.length_nil]
    rw [hB3, hp3, RawMessage.advance_append (n := 2) (by simp [beBytes16]), take2_beBytes16]
    simp only []
    rw [be16_beBytes16 (dnsClass_toNat_lt class_), dnsClass_tryFrom_toNat]
    simp only []
    have hB4 : ((pre ++ encodeName name) ++ beBytes16 RecordType.A.toNat) ++
          (beBytes16 class_.toNat ++ (beBytes32 ttl ++ (beBytes16 4 ++ ([o0, o1, o2, o3] ++ suf))))
        = (((pre ++ encodeName name) ++ beBytes16 RecordType.A.toNat) ++ beBytes16 class_.toNat) ++
            (beBytes32 ttl ++ (beBytes16 4 ++ ([o0, o1, o2, o3] ++ suf))) := by simp
    have hp4 : ((pre ++ encodeName name) ++ beBytes16 RecordType.A.toNat).length + 2
        = (((pre ++ encodeName name) ++ beBytes16 RecordType.A.toNat) ++
            beBytes16 class_.toNat).length := by
      simp only [List.length_append, beBytes16, List.length_cons, List.length_nil]
    rw [hB4, hp4, RawMessage.advance_append (n := 4) (by simp [beBytes32]), take4_beBytes32]
    simp only []
    rw [be32_beBytes32 httl]
    have hB5 : (((pre ++ encodeName name) ++ beBytes16 RecordType.A.toNat) ++
          beBytes16 class_.toNat) ++ (beBytes32 ttl ++ (beBytes16 4 ++ ([o0, o1, o2, o3] ++ suf)))
        = ((((pre ++ encodeName name) ++ beBytes16 RecordType.A.toNat) ++
            beBytes16 class_.toNat) ++ beBytes32 ttl) ++ (beBytes16 4 ++ ([o0, o1, o2, o3] ++
              suf)) := by simp
    have hp5 : (((pre ++ encodeName name) ++ beBytes16 RecordType.A.toNat) ++
          beBytes16 class_.toNat).length + 4
        = ((((pre ++ encodeName name) ++ beBytes16 RecordType.A.toNat) ++
            beBytes16 class_.toNat) ++ beBytes32 ttl).length := by
      simp only [List.length_append, beBytes16, beBytes32, List.length_cons, List.length_nil]
    rw [hB5, hp5, RawMessage.advance_append (n := 2) (by simp [beBytes16]), take2_beBytes16]
    simp only []
    rw [be16_beBytes16 (by omega : (4:Nat) < 65536)]
    have hB6 : ((((pre ++ encodeName name) ++ beBytes16 RecordType.A.toNat) ++
          beBytes16 class_.toNat) ++ beBytes32 ttl) ++ (beBytes16 4 ++ ([o0, o1, o2, o3] ++ suf))
        = (((((pre ++ encodeName name) ++ beBytes16 RecordType.A.toNat) ++
            beBytes16 class_.toNat) ++ beBytes32 ttl) ++ beBytes16 4) ++
              ([o0, o1, o2, o3] ++ suf) := by simp
    have hp6 : ((((pre ++ encodeName name) ++ beBytes16 RecordType.A.toNat) ++
          beBytes16 class_.toNat) ++ beBytes32 ttl).length + 2
        = (((((pre ++ encodeName name) ++ beBytes16 RecordType.A.toNat) ++
            beBytes16 class_.toNat) ++ beBytes32 ttl) ++ beBytes16 4).length := by
      simp only [List.length_append, beBytes16, beBytes32, List.length_cons, List.length_nil]
    rw [hB6, hp6, RawMessage.advance_append (n := 4) (by simp),
      show ([o0, o1, o2, o3] ++ suf).take 4 = [o0, o1, o2, o3] by simp]
    simp only []
    simp [ResourceRecord.to_bytes, beBytes16, beBytes32, encodeName] <;> omega

theorem Header.to_bytes_length (h : Header) : h.to_bytes.length = 12 := by
  simp [Header.to_bytes, beBytes16]

theorem parseN_at {α : Type} (p : RawMessage → Except DnsError (α × RawMessage))
    (enc : α → List Nat) (P : α → Bool)
    (hstep : ∀ x pre suf, P x = true →
      p ⟨pre ++ enc x ++ suf, pre.length⟩ =
        .ok (x, ⟨pre ++ enc x ++ suf, pre.length + (enc x).length⟩)) :
    ∀ (items : List α) (pre suf : List Nat), (∀ x ∈ items, P x = true) →
    parseN p items.length ⟨pre ++ items.flatMap enc ++ suf, pre.length⟩ =
      .ok (items, ⟨pre ++ items.flatMap enc ++ suf, pre.length + (items.flatMap enc).length⟩) := by
  intro items
  induction items with
  | nil =>
    intro pre suf _
    simp [parseN]
  | cons x xs ih =>
    intro pre suf hP
    have hB1 : pre ++ (x :: xs).flatMap enc ++ suf
        = pre ++ enc x ++ (xs.flatMap enc ++ suf) := by simp
    simp only [List.length_cons]
    rw [parseN, hB1, hstep x pre (xs.flatMap enc ++ suf) (hP x (List.mem_cons_self x xs))]
    simp only [bind, Except.bind]
    have hp1 : pre.length + (enc x).length = (pre ++ enc x).length := by simp
    have hB2 : pre ++ enc x ++ (xs.flatMap enc ++ suf)
        = (pre ++ enc x) ++ xs.flatMap enc ++ suf := by simp
    rw [hp1, hB2, ih (pre ++ enc x) suf (fun y hy => hP y (List.mem_cons_of_mem x hy))]
    simp only []
    simp only [Except.ok.injEq, Prod.mk.injEq, RawMessage.mk.injEq, List.flatMap_cons]
    refine ⟨trivial, trivial, ?_⟩
    simp only [List.length_append]
    generalize (xs.flatMap enc).length = S
    omega

theorem message_from_bytes_to_bytes (m : DNSMessage) (hw : wellFormedMessage m = true) :
    DNSMessage.from_bytes m.to_bytes = .ok m := by
  obtain ⟨h, question, answer⟩ := m
  simp only [wellFormedMessage, Bool.and_eq_true] at hw
  obtain ⟨⟨hwh, hq⟩, ha⟩ := hw
  have hH := Header.to_bytes_length h
  have htake12 : ∀ tail : List Nat, (h.to_bytes ++ tail).take 12 = h.to_bytes := by
    intro tail
    rw [← hH]
    exact List.take_left h.to_bytes tail
  have h12 : (12 : Nat) = h.to_bytes.length := hH.symm
  rcases question with _ | qs <;> rcases answer with _ | ans
  · -- no questions, no answers
    simp only [decide_eq_true_eq] at hq ha
    simp only [DNSMessage.to_bytes]
    rw [DNSMessage.from_bytes]
    rw [if_neg (by simp [hH])]
    have ht : (h.to_bytes ++ [] ++ []).take 12 = h.to_bytes := by
      simpa using htake12 []
    rw [ht, header_from_bytes_to_bytes h hwh]
    simp only [bind, Except.bind, pure, Except.pure]
    rw [if_neg (by simp [hq])]
    try simp only []
    rw [if_neg (by simp [ha])]
  · -- no questions, some answers
    simp only [decide_eq_true_eq] at hq
    simp only [Bool.and_eq_true, decide_eq_true_eq, Bool.not_eq_true',
      List.all_eq_true] at ha
    obtain ⟨⟨han, hane⟩, hall⟩ := ha
    simp only [DNSMessage.to_bytes]
    rw [DNSMessage.from_bytes]
    rw [if_neg (by simp [hH])]
    have hB0 : h.to_bytes ++ [] ++ ans.flatMap ResourceRecord.to_bytes
        = h.to_bytes ++ ans.flatMap ResourceRecord.to_bytes ++ [] := by simp
    have ht : (h.to_bytes ++ ans.flatMap ResourceRecord.to_bytes ++ []).take 12
        = h.to_bytes := by
      simpa using htake12 (ans.flatMap ResourceRecord.to_bytes)
    rw [hB0, ht, header_from_bytes_to_bytes h hwh]
    simp only [bind, Except.bind, pure, Except.pure]
    rw [if_neg (by simp [hq])]
    try simp only []
    rw [if_pos (by rw [han]; simpa [List.isEmpty_eq_false] using hane)]
    rw [han, h12, parseN_at ResourceRecord.from_bytes ResourceRecord.to_bytes wellFormedRR
      (fun x pre suf hx => rr_from_bytes_at x pre suf hx) ans h.to_bytes [] hall]
    try simp only []
  · -- some questions, no answers
    simp only [decide_eq_true_eq] at ha
    simp only [Bool.and_eq_true, decide_eq_true_eq, Bool.not_eq_true',
      List.all_eq_true] at hq
    obtain ⟨⟨hqd, hqne⟩, hall⟩ := hq
    simp only [DNSMessage.to_bytes]
    rw [DNSMessage.from_bytes]
    rw [if_neg (by simp [hH])]
    have ht : (h.to_bytes ++ qs.flatMap Question.to_bytes ++ []).take 12 = h.to_bytes := by
      simpa using htake12 (qs.flatMap Question.to_bytes)
    rw [ht, header_from_bytes_to_bytes h hwh]
    simp only [bind, Except.bind, pure, Except.pure]
    rw [if_pos (by rw [hqd]; simpa [List.isEmpty_eq_false] using hqne)]
    rw [hqd, h12, parseN_at Question.from_bytes Question.to_bytes wellFormedQuestion
      (fun x pre suf hx => question_from_bytes_at x pre suf hx) qs h.to_bytes [] hall]
    try simp only []
    rw [if_neg (by simp [ha])]
  · -- some questions, some answers
    simp only [Bool.and_eq_true, decide_eq_true_eq, Bool.not_eq_true',
      List.all_eq_true] at hq ha
    obtain ⟨⟨hqd, hqne⟩, hqall⟩ := hq
    obtain ⟨⟨han, hane⟩, hall⟩ := ha
    simp only [DNSMessage.to_bytes]
    rw [DNSMessage.from_bytes]
    rw [if_neg (by simp [hH])]
    have ht : (h.to_bytes ++ qs.flatMap Question.to_bytes ++
        ans.flatMap ResourceRecord.to_bytes).take 12 = h.to_bytes := by
      have hr : h.to_bytes ++ qs.flatMap Question.to_bytes ++
          ans.flatMap ResourceRecord.to_bytes
          = h.to_bytes ++ (qs.flatMap Question.to_bytes ++
              ans.flatMap ResourceRecord.to_bytes) := by simp
      rw [hr]
      exact htake12 _
    rw [ht, header_from_bytes_to_bytes h hwh]
    simp only [bind, Except.bind, pure, Except.pure]
    rw [if_pos (by rw [hqd]; simpa [List.isEmpty_eq_false] using hqne)]
    rw [hqd, h12, parseN_at Question.from_bytes Question.to_bytes wellFormedQuestion
      (fun x pre suf hx => question_from_bytes_at x pre suf hx) qs h.to_bytes
      (ans.flatMap ResourceRecord.to_bytes) hqall]
    try simp only []
    rw [if_pos (by rw [han]; simpa [List.isEmpty_eq_false] using hane)]
    have hp2 : h.to_bytes.length + (qs.flatMap Question.to_bytes).length
        = (h.to_bytes ++ qs.flatMap Question.to_bytes).length := by simp
    have hB2 : h.to_bytes ++ qs.flatMap Question.to_bytes ++ ans.flatMap ResourceRecord.to_bytes
        = (h.to_bytes ++ qs.flatMap Question.to_bytes) ++ ans.flatMap ResourceRecord.to_bytes
            ++ [] := by simp
    rw [han, hp2, hB2, parseN_at ResourceRecord.from_bytes ResourceRecord.to_bytes wellFormedRR
      (fun x pre suf hx => rr_from_bytes_at x pre suf hx) ans
      (h.to_bytes ++ qs.flatMap Question.to_bytes) [] hall]
    try simp only []

/-! Claim theorems. -/

/-- C6: `Header::build_reply` flips the message type to response, sets the answer count to the
question count, sets the response code to no-error exactly when the opcode is the standard
query opcode and to not-implemented for every other opcode (the reserved/experimental value 3,
`OpCode.CodeCrafters`, included), and copies every other field unchanged. -/
theorem C6_header_build_reply (h : Header) :
    h.build_reply.message_type = .Response ∧
    h.build_reply.an_count = h.qd_count ∧
    h.build_reply.response_code =
      (if h.op_code = .Query then .NoError else .NotImplemented) ∧
    h.build_reply.id = h.id ∧ h.build_reply.op_code = h.op_code ∧
    h.build_reply.auth_answer = h.auth_answer ∧ h.build_reply.truncation = h.truncation ∧
    h.build_reply.recursion_desired = h.recursion_desired ∧
    h.build_reply.recursion_available = h.recursion_available ∧ h.build_reply.z = h.z ∧
    h.build_reply.qd_count = h.qd_count ∧ h.build_reply.ns_count = h.ns_count ∧
    h.build_reply.ar_count = h.ar_count := by
  refine ⟨rfl, rfl, ?_, rfl, rfl, rfl, rfl, rfl, rfl, rfl, rfl, rfl, rfl⟩
  rcases hop : h.op_code <;> simp [Header.build_reply, hop]

/-- C10: whenever the session's collected-answer count (the accumulating header's answer
count) is strictly below the number of questions held, `Forwarder::forward` does not reach its
failure branch: the lookup at index `answers()` succeeds and the serialized single-question
query is returned. -/
theorem C10_forward_in_range (f : Forwarder) (qs : List Question)
    (hqs : f.message.question = some qs)
    (hlt : f.message.header.an_count < qs.length) :
    ∃ q, qs.get? f.message.answers = some q ∧
      f.forward = .ok (DNSMessage.to_bytes
        ⟨{ f.message.header with qd_count := 1 }, some [q], Option.none⟩) := by
  have hget : qs.get? f.message.answers = some (qs.get ⟨f.message.answers, hlt⟩) :=
    List.get?_eq_get hlt
  refine ⟨_, hget, ?_⟩
  unfold Forwarder.forward
  rw [hqs]
  simp only []
  rw [hget]
  simp [DNSMessage.default]

/-- C3 counterexample: the byte `0b11000001` has both top bits set, yet the code's `pointer`
does not treat the pair `(0b11000001, 0b00001100)` as a pointer at all — in particular not as
one with offset `((b1 & 0x3F) << 8) | b2 = 268` as the claim requires. -/
theorem C3_counterexample :
    (0b11000001 : Nat) >>> 6 = 3 ∧
    pointer 0b11000001 0b00001100 = none ∧
    pointer 0b11000001 0b00001100 ≠
      some ((((0b11000001 : Nat) &&& 0x3F) <<< 8) ||| 0b00001100) := by
  decide

/-- C3 amended: only a length byte exactly equal to `0b11000000` is treated (with the byte
following it) as a compression pointer; its offset is `((b1 & 0x3F) << 8) | b2`, which for
`b1 = 0b11000000` is just the second byte.  The two cited byte pairs behave as the spec
states: `(0b11000000, 0b00001100)` decodes to offset 12 and `(0b00000000, 0b00001100)` is not
a pointer.  A first byte with both top bits set but any low bit set is not a pointer. -/
theorem C3_pointer_amended :
    (∀ b2, b2 < 256 → pointer 0b11000000 b2 = some ((((0b11000000 : Nat) &&& 0x3F) <<< 8) |||
      b2)) ∧
    (∀ b b2, b ≠ 0b11000000 → pointer b b2 = none) ∧
    pointer 0b11000000 0b00001100 = some 12 ∧
    pointer 0b00000000 0b00001100 = none := by
  refine ⟨?_, ?_, by decide, by decide⟩
  · intro b2 hb2
    have h0 : ((((0b11000000 : Nat) &&& 0x3F) <<< 8) ||| b2) = b2 := by
      rw [show (((0b11000000 : Nat) &&& 0x3F) <<< 8) = 0 by decide]
      simp [Nat.zero_or]
    rw [pointer_192 b2 hb2, h0]
  · intro b b2 hb
    exact pointer_ne hb

/-- C3 amended, witness: concrete instances of both quantified parts. -/
theorem C3_pointer_amended_witness :
    pointer 0b11000000 13 = some 13 ∧ pointer 0b11001000 13 = none := by
  constructor
  · have h := C3_pointer_amended.1 13 (by decide)
    simpa using h
  · exact C3_pointer_amended.2.1 0b11001000 13 (by decide)

/-- C1 (evaluation at the failing input): `DNSMessage::build_reply` on a decoded one-question
request produces a reply whose header declares 2 answers while the reply holds exactly one
answer record — `Header::build_reply` already copies `qd_count` into `an_count`, and
`add_answer` then increments it once more per synthesized answer. -/
theorem C1_build_reply_double_count :
    DNSMessage.build_reply
        ⟨{ Header.default with id := 1, qd_count := 1 },
         some [⟨strBytes "codecrafters.io", RecordType.A, DnsClass.IN⟩], Option.none⟩ =
      .ok ⟨{ Header.default with id := 1, message_type := .Response, qd_count := 1, an_count := 2 },
           some [⟨strBytes "codecrafters.io", RecordType.A, DnsClass.IN⟩],
           some [⟨strBytes "codecrafters.io", RecordType.A, DnsClass.IN, 60, 4,
                  Data.IP ⟨8, 8, 8, 8⟩⟩]⟩ ∧
    (2 : Nat) ≠ 1 := by
  constructor
  · rfl
  · decide

/-- C9 (evaluation at the failing input): decoding an address-type resource record whose
declared rdata length is 0 — name `""` (bare terminator), type A, class IN, TTL 0, length 0,
no rdata — reaches the out-of-bounds indexing `data[0]` of `Ipv4Addr::new` and aborts
(`DnsError.abort` models the Rust panic), instead of returning a format error as the claim
requires. -/
theorem C9_short_rdata_abort :
    ResourceRecord.from_bytes ⟨[0, 0, 1, 0, 1, 0, 0, 0, 0, 0, 0], 0⟩ =
      .error .abort := by
  rw [ResourceRecord.from_bytes, parse_labels, parseLoop_zero (by rfl)]
  decide

/-- C10 witness: a session holding one question and zero collected answers; `forward` returns
the serialized single-question query. -/
theorem C10_forward_in_range_witness :
    ∃ q, ([⟨strBytes "abc", RecordType.A, DnsClass.IN⟩] : List Question).get?
        (Forwarder.mk 0 ⟨{ Header.default with qd_count := 1 },
          some [⟨strBytes "abc", RecordType.A, DnsClass.IN⟩], Option.none⟩).message.answers
        = some q ∧
      (Forwarder.mk 0 ⟨{ Header.default with qd_count := 1 },
          some [⟨strBytes "abc", RecordType.A, DnsClass.IN⟩], Option.none⟩).forward = .ok
        (DNSMessage.to_bytes ⟨{ Header.default with qd_count := 1 }, some [q], Option.none⟩) :=
  C10_forward_in_range
    (Forwarder.mk 0 ⟨{ Header.default with qd_count := 1 },
      some [⟨strBytes "abc", RecordType.A, DnsClass.IN⟩], Option.none⟩)
    [⟨strBytes "abc", RecordType.A, DnsClass.IN⟩] rfl (by decide)

/-- C2: for every well-formed message — header counts equal to the lengths of the lists held,
names made of non-empty valid-text DNS labels, coherent rdata — decoding the encoding yields
the original, for the header codec, the question codec, and the resource-record codec
individually (each consuming exactly its own bytes) and for the composed message codec. -/
theorem C2_roundtrip :
    (∀ h : Header, wellFormedHeader h = true → Header.from_bytes h.to_bytes = .ok h) ∧
    (∀ q : Question, wellFormedQuestion q = true →
      Question.from_bytes ⟨q.to_bytes, 0⟩ = .ok (q, ⟨q.to_bytes, q.to_bytes.length⟩)) ∧
    (∀ rr : ResourceRecord, wellFormedRR rr = true →
      ResourceRecord.from_bytes ⟨rr.to_bytes, 0⟩ = .ok (rr, ⟨rr.to_bytes, rr.to_bytes.length⟩)) ∧
    (∀ m : DNSMessage, wellFormedMessage m = true →
      DNSMessage.from_bytes m.to_bytes = .ok m) := by
  refine ⟨header_from_bytes_to_bytes, ?_, ?_, message_from_bytes_to_bytes⟩
  · intro q hq
    simpa using question_from_bytes_at q [] [] hq
  · intro rr hrr
    simpa using rr_from_bytes_at rr [] [] hrr

/-- C2 witness: the round trip evaluated on a concrete header, question, address record and
one-question/one-answer message. -/
theorem C2_roundtrip_witness :
    Header.from_bytes (Header.to_bytes { Header.default with id := 77, qd_count := 1, an_count := 1 }) =
      .ok { Header.default with id := 77, qd_count := 1, an_count := 1 } ∧
    Question.from_bytes ⟨(Question.mk (strBytes "codecrafters.io") .A .IN).to_bytes, 0⟩ =
      .ok (Question.mk (strBytes "codecrafters.io") .A .IN,
        ⟨(Question.mk (strBytes "codecrafters.io") .A .IN).to_bytes,
         (Question.mk (strBytes "codecrafters.io") .A .IN).to_bytes.length⟩) ∧
    ResourceRecord.from_bytes
        ⟨(ResourceRecord.mk (strBytes "codecrafters.io") .A .IN 60 4
            (Data.IP ⟨8, 8, 8, 8⟩)).to_bytes, 0⟩ =
      .ok (ResourceRecord.mk (strBytes "codecrafters.io") .A .IN 60 4 (Data.IP ⟨8, 8, 8, 8⟩),
        ⟨(ResourceRecord.mk (strBytes "codecrafters.io") .A .IN 60 4
            (Data.IP ⟨8, 8, 8, 8⟩)).to_bytes,
         (ResourceRecord.mk (strBytes "codecrafters.io") .A .IN 60 4
            (Data.IP ⟨8, 8, 8, 8⟩)).to_bytes.length⟩) ∧
    DNSMessage.from_bytes
        (DNSMessage.mk { Header.default with id := 77, qd_count := 1, an_count := 1 }
          (some [Question.mk (strBytes "codecrafters.io") .A .IN])
          (some [ResourceRecord.mk (strBytes "codecrafters.io") .A .IN 60 4
            (Data.IP ⟨8, 8, 8, 8⟩)])).to_bytes =
      .ok (DNSMessage.mk { Header.default with id := 77, qd_count := 1, an_count := 1 }
          (some [Question.mk (strBytes "codecrafters.io") .A .IN])
          (some [ResourceRecord.mk (strBytes "codecrafters.io") .A .IN 60 4
            (Data.IP ⟨8, 8, 8, 8⟩)])) :=
  ⟨C2_roundtrip.1 _ (by decide), C2_roundtrip.2.1 _ (by decide),
   C2_roundtrip.2.2.1 _ (by decide), C2_roundtrip.2.2.2 _ (by decide)⟩

/-- C8: ingesting an upstream reply that decodes successfully: if it carries at least one
answer, exactly the first answer is appended to the accumulating message (via `add_answer`,
which increments the collected-answer count by one), and the call reports complete exactly
when the new collected count equals the original request's question count; if it carries no
answer, the call reports complete leaving the session untouched. -/
theorem C8_ingest_reply (f : Forwarder) (buf : List Nat) (reply : DNSMessage)
    (hdec : DNSMessage.from_bytes buf = .ok reply) :
    (∀ a rest, reply.answer = some (a :: rest) →
      f.add_answer buf =
        .ok ((f.message.header.qd_count == f.message.header.an_count + 1),
             { f with message := f.message.add_answer a }) ∧
      (f.message.add_answer a).header.an_count = f.message.header.an_count + 1 ∧
      (f.message.add_answer a).answer =
        some ((f.message.answer.getD []) ++ [a])) ∧
    (reply.answer = Option.none → f.add_answer buf = .ok (true, f)) := by
  constructor
  · intro a rest hans
    refine ⟨?_, rfl, ?_⟩
    · unfold Forwarder.add_answer
      rw [hdec]
      simp only [bind, Except.bind]
      rw [hans]
      simp only [DNSMessage.questions, DNSMessage.answers, DNSMessage.add_answer]
    · unfold DNSMessage.add_answer
      rcases f.message.answer <;> simp
  · intro hans
    unfold Forwarder.add_answer
    rw [hdec]
    simp only [bind, Except.bind]
    rw [hans]

/-- C8 witness: a 1-question session ingesting first a decoded upstream reply carrying one
answer (append + complete, since 1 question and now 1 answer), then — on a fresh equal session
— a reply carrying no answer (complete, untouched). -/
theorem C8_ingest_reply_witness :
    (Forwarder.add_answer
        (Forwarder.mk 0 ⟨{ Header.default with qd_count := 1 },
          some [⟨strBytes "abc", RecordType.A, DnsClass.IN⟩], Option.none⟩)
        (DNSMessage.to_bytes ⟨{ Header.default with an_count := 1 }, Option.none,
          some [⟨strBytes "codecrafters.io", .A, .IN, 60, 4, Data.IP ⟨8, 8, 8, 8⟩⟩]⟩) =
      .ok (true,
        { Forwarder.mk 0 ⟨{ Header.default with qd_count := 1 },
            some [⟨strBytes "abc", RecordType.A, DnsClass.IN⟩], Option.none⟩ with
          message := DNSMessage.add_answer
            ⟨{ Header.default with qd_count := 1 },
              some [⟨strBytes "abc", RecordType.A, DnsClass.IN⟩], Option.none⟩
            ⟨strBytes "codecrafters.io", .A, .IN, 60, 4, Data.IP ⟨8, 8, 8, 8⟩⟩ })) ∧
    (Forwarder.add_answer
        (Forwarder.mk 0 ⟨{ Header.default with qd_count := 1 },
          some [⟨strBytes "abc", RecordType.A, DnsClass.IN⟩], Option.none⟩)
        (DNSMessage.to_bytes ⟨Header.default, Option.none, Option.none⟩) =
      .ok (true, Forwarder.mk 0 ⟨{ Header.default with qd_count := 1 },
          some [⟨strBytes "abc", RecordType.A, DnsClass.IN⟩], Option.none⟩)) := by
  constructor
  · have h := (C8_ingest_reply
      (Forwarder.mk 0 ⟨{ Header.default with qd_count := 1 },
        some [⟨strBytes "abc", RecordType.A, DnsClass.IN⟩], Option.none⟩)
      (DNSMessage.to_bytes ⟨{ Header.default with an_count := 1 }, Option.none,
        some [⟨strBytes "codecrafters.io", .A, .IN, 60, 4, Data.IP ⟨8, 8, 8, 8⟩⟩]⟩)
      ⟨{ Header.default with an_count := 1 }, Option.none,
        some [⟨strBytes "codecrafters.io", .A, .IN, 60, 4, Data.IP ⟨8, 8, 8, 8⟩⟩]⟩
      (message_from_bytes_to_bytes _ (by decide))).1
      ⟨strBytes "codecrafters.io", .A, .IN, 60, 4, Data.IP ⟨8, 8, 8, 8⟩⟩ [] rfl
    exact h.1
  · exact (C8_ingest_reply
      (Forwarder.mk 0 ⟨{ Header.default with qd_count := 1 },
        some [⟨strBytes "abc", RecordType.A, DnsClass.IN⟩], Option.none⟩)
      (DNSMessage.to_bytes ⟨Header.default, Option.none, Option.none⟩)
      ⟨Header.default, Option.none, Option.none⟩
      (message_from_bytes_to_bytes _ (by decide))).2 rfl

/-- C7: a session for a 2-question request with zero collected answers emits a first
single-question upstream query (question count forced to 1, holding exactly the question at
index 0); ingesting a first decoded upstream answer reports continue with one answer
collected; the next query holds exactly the question at index 1; ingesting the second answer
reports complete; and the finalized reply declares answer count 2, carries the original
question list in its original order and both collected answers, serialized by the message
encoder.  The two `forward` calls and the completion flag make the exchange exactly two
sequential upstream queries. -/
theorem C7_forwarding_scenario
    (f : Forwarder) (q1 q2 : Question) (r1 r2 : List Nat) (m1 m2 : DNSMessage)
    (a1 a2 : ResourceRecord) (t1 t2 : List ResourceRecord)
    (hq : f.message.question = some [q1, q2])
    (hqd : f.message.header.qd_count = 2)
    (han : f.message.header.an_count = 0)
    (ha0 : f.message.answer = Option.none)
    (hr1 : DNSMessage.from_bytes r1 = .ok m1) (hm1 : m1.answer = some (a1 :: t1))
    (hr2 : DNSMessage.from_bytes r2 = .ok m2) (hm2 : m2.answer = some (a2 :: t2)) :
    f.forward = .ok (DNSMessage.to_bytes
      ⟨{ f.message.header with qd_count := 1 }, some [q1], Option.none⟩) ∧
    f.add_answer r1 = .ok (false, { f with message := f.message.add_answer a1 }) ∧
    ({ f with message := f.message.add_answer a1 } : Forwarder).message.header.an_count = 1 ∧
    Forwarder.forward { f with message := f.message.add_answer a1 } =
      .ok (DNSMessage.to_bytes
        ⟨{ f.message.header with an_count := 1, qd_count := 1 }, some [q2], Option.none⟩) ∧
    Forwarder.add_answer { f with message := f.message.add_answer a1 } r2 =
      .ok (true, { f with message := (f.message.add_answer a1).add_answer a2 }) ∧
    (Forwarder.build_reply
        { f with message := (f.message.add_answer a1).add_answer a2 }).2.message.header.an_count
      = 2 ∧
    (Forwarder.build_reply
        { f with message := (f.message.add_answer a1).add_answer a2 }).2.message.question
      = some [q1, q2] ∧
    (Forwarder.build_reply
        { f with message := (f.message.add_answer a1).add_answer a2 }).2.message.answer
      = some [a1, a2] ∧
    (Forwarder.build_reply { f with message := (f.message.add_answer a1).add_answer a2 }).1
      = DNSMessage.to_bytes (Forwarder.build_reply
          { f with message := (f.message.add_answer a1).add_answer a2 }).2.message := by
  refine ⟨?_, ?_, ?_, ?_, ?_, ?_, ?_, ?_, ?_⟩
  · -- first upstream query
    unfold Forwarder.forward
    rw [hq]
    simp only [DNSMessage.answers, han]
    simp [DNSMessage.default]
  · -- first ingest: continue (false)
    unfold Forwarder.add_answer
    rw [hr1]
    simp only [bind, Except.bind]
    rw [hm1]
    simp only [DNSMessage.questions, DNSMessage.answers, DNSMessage.add_answer, hqd, han]
    rfl
  · simp [DNSMessage.add_answer, han]
  · -- second upstream query
    unfold Forwarder.forward
    simp only [DNSMessage.add_answer]
    rw [hq]
    simp only [DNSMessage.answers, han]
    simp [DNSMessage.default, han]
  · -- second ingest: complete (true)
    unfold Forwarder.add_answer
    rw [hr2]
    simp only [bind, Except.bind]
    rw [hm2]
    simp only [DNSMessage.questions, DNSMessage.answers, DNSMessage.add_answer, hqd, han]
    rfl
  · simp [Forwarder.build_reply, DNSMessage.add_answer, Header.build_reply, hqd]
  · simp [Forwarder.build_reply, DNSMessage.add_answer, hq]
  · simp [Forwarder.build_reply, DNSMessage.add_answer, ha0]
  · rfl

/-- C7 witness: the scenario run on a concrete 2-question request with two concrete decoded
upstream replies. -/
theorem C7_forwarding_scenario_witness :
    Forwarder.forward (Forwarder.mk 0 (DNSMessage.mk { Header.default with qd_count := 2 }
        (some [Question.mk (strBytes "a") .A .IN, Question.mk (strBytes "b") .A .IN])
        Option.none)) =
      .ok (DNSMessage.to_bytes ⟨{ Header.default with qd_count := 1 },
        some [Question.mk (strBytes "a") .A .IN], Option.none⟩) ∧
    Forwarder.add_answer (Forwarder.mk 0 (DNSMessage.mk { Header.default with qd_count := 2 }
        (some [Question.mk (strBytes "a") .A .IN, Question.mk (strBytes "b") .A .IN])
        Option.none))
        (DNSMessage.to_bytes ⟨{ Header.default with an_count := 1 }, Option.none,
          some [ResourceRecord.mk (strBytes "a") .A .IN 60 4 (Data.IP ⟨1, 2, 3, 4⟩)]⟩) =
      .ok (false, Forwarder.mk 0
        (DNSMessage.mk { Header.default with qd_count := 2, an_count := 1 }
          (some [Question.mk (strBytes "a") .A .IN, Question.mk (strBytes "b") .A .IN])
          (some [ResourceRecord.mk (strBytes "a") .A .IN 60 4 (Data.IP ⟨1, 2, 3, 4⟩)]))) ∧
    (Forwarder.mk 0 (DNSMessage.mk { Header.default with qd_count := 2, an_count := 1 }
        (some [Question.mk (strBytes "a") .A .IN, Question.mk (strBytes "b") .A .IN])
        (some [ResourceRecord.mk (strBytes "a") .A .IN 60 4
          (Data.IP ⟨1, 2, 3, 4⟩)]))).message.header.an_count = 1 ∧
    Forwarder.forward (Forwarder.mk 0
        (DNSMessage.mk { Header.default with qd_count := 2, an_count := 1 }
          (some [Question.mk (strBytes "a") .A .IN, Question.mk (strBytes "b") .A .IN])
          (some [ResourceRecord.mk (strBytes "a") .A .IN 60 4 (Data.IP ⟨1, 2, 3, 4⟩)]))) =
      .ok (DNSMessage.to_bytes ⟨{ Header.default with qd_count := 1, an_count := 1 },
        some [Question.mk (strBytes "b") .A .IN], Option.none⟩) ∧
    Forwarder.add_answer (Forwarder.mk 0
        (DNSMessage.mk { Header.default with qd_count := 2, an_count := 1 }
          (some [Question.mk (strBytes "a") .A .IN, Question.mk (strBytes "b") .A .IN])
          (some [ResourceRecord.mk (strBytes "a") .A .IN 60 4 (Data.IP ⟨1, 2, 3, 4⟩)])))
        (DNSMessage.to_bytes ⟨{ Header.default with an_count := 1 }, Option.none,
          some [ResourceRecord.mk (strBytes "b") .A .IN 60 4 (Data.IP ⟨5, 6, 7, 8⟩)]⟩) =
      .ok (true, Forwarder.mk 0
        (DNSMessage.mk { Header.default with qd_count := 2, an_count := 2 }
          (some [Question.mk (strBytes "a") .A .IN, Question.mk (strBytes "b") .A .IN])
          (some [ResourceRecord.mk (strBytes "a") .A .IN 60 4 (Data.IP ⟨1, 2, 3, 4⟩),
                 ResourceRecord.mk (strBytes "b") .A .IN 60 4 (Data.IP ⟨5, 6, 7, 8⟩)]))) ∧
    (Forwarder.build_reply (Forwarder.mk 0
        (DNSMessage.mk { Header.default with qd_count := 2, an_count := 2 }
          (some [Question.mk (strBytes "a") .A .IN, Question.mk (strBytes "b") .A .IN])
          (some [ResourceRecord.mk (strBytes "a") .A .IN 60 4 (Data.IP ⟨1, 2, 3, 4⟩),
                 ResourceRecord.mk (strBytes "b") .A .IN 60 4
                   (Data.IP ⟨5, 6, 7, 8⟩)])))).2.message.header.an_count = 2 ∧
    (Forwarder.build_reply (Forwarder.mk 0
        (DNSMessage.mk { Header.default with qd_count := 2, an_count := 2 }
          (some [Question.mk (strBytes "a") .A .IN, Question.mk (strBytes "b") .A .IN])
          (some [ResourceRecord.mk (strBytes "a") .A .IN 60 4 (Data.IP ⟨1, 2, 3, 4⟩),
                 ResourceRecord.mk (strBytes "b") .A .IN 60 4
                   (Data.IP ⟨5, 6, 7, 8⟩)])))).2.message.question =
      some [Question.mk (strBytes "a") .A .IN, Question.mk (strBytes "b") .A .IN] ∧
    (Forwarder.build_reply (Forwarder.mk 0
        (DNSMessage.mk { Header.default with qd_count := 2, an_count := 2 }
          (some [Question.mk (strBytes "a") .A .IN, Question.mk (strBytes "b") .A .IN])
          (some [ResourceRecord.mk (strBytes "a") .A .IN 60 4 (Data.IP ⟨1, 2, 3, 4⟩),
                 ResourceRecord.mk (strBytes "b") .A .IN 60 4
                   (Data.IP ⟨5, 6, 7, 8⟩)])))).2.message.answer =
      some [ResourceRecord.mk (strBytes "a") .A .IN 60 4 (Data.IP ⟨1, 2, 3, 4⟩),
            ResourceRecord.mk (strBytes "b") .A .IN 60 4 (Data.IP ⟨5, 6, 7, 8⟩)] ∧
    (Forwarder.build_reply (Forwarder.mk 0
        (DNSMessage.mk { Header.default with qd_count := 2, an_count := 2 }
          (some [Question.mk (strBytes "a") .A .IN, Question.mk (strBytes "b") .A .IN])
          (some [ResourceRecord.mk (strBytes "a") .A .IN 60 4 (Data.IP ⟨1, 2, 3, 4⟩),
                 ResourceRecord.mk (strBytes "b") .A .IN 60 4
                   (Data.IP ⟨5, 6, 7, 8⟩)])))).1 =
      DNSMessage.to_bytes (Forwarder.build_reply (Forwarder.mk 0
        (DNSMessage.mk { Header.default with qd_count := 2, an_count := 2 }
          (some [Question.mk (strBytes "a") .A .IN, Question.mk (strBytes "b") .A .IN])
          (some [ResourceRecord.mk (strBytes "a") .A .IN 60 4 (Data.IP ⟨1, 2, 3, 4⟩),
                 ResourceRecord.mk (strBytes "b") .A .IN 60 4
                   (Data.IP ⟨5, 6, 7, 8⟩)])))).2.message :=
  C7_forwarding_scenario
    (Forwarder.mk 0 (DNSMessage.mk { Header.default with qd_count := 2 }
      (some [Question.mk (strBytes "a") .A .IN, Question.mk (strBytes "b") .A .IN])
      Option.none))
    (Question.mk (strBytes "a") .A .IN) (Question.mk (strBytes "b") .A .IN)
    (DNSMessage.to_bytes ⟨{ Header.default with an_count := 1 }, Option.none,
      some [ResourceRecord.mk (strBytes "a") .A .IN 60 4 (Data.IP ⟨1, 2, 3, 4⟩)]⟩)
    (DNSMessage.to_bytes ⟨{ Header.default with an_count := 1 }, Option.none,
      some [ResourceRecord.mk (strBytes "b") .A .IN 60 4 (Data.IP ⟨5, 6, 7, 8⟩)]⟩)
    ⟨{ Header.default with an_count := 1 }, Option.none,
      some [ResourceRecord.mk (strBytes "a") .A .IN 60 4 (Data.IP ⟨1, 2, 3, 4⟩)]⟩
    ⟨{ Header.default with an_count := 1 }, Option.none,
      some [ResourceRecord.mk (strBytes "b") .A .IN 60 4 (Data.IP ⟨5, 6, 7, 8⟩)]⟩
    (ResourceRecord.mk (strBytes "a") .A .IN 60 4 (Data.IP ⟨1, 2, 3, 4⟩))
    (ResourceRecord.mk (strBytes "b") .A .IN 60 4 (Data.IP ⟨5, 6, 7, 8⟩)) [] []
    rfl rfl rfl rfl
    (message_from_bytes_to_bytes _ (by decide)) rfl
    (message_from_bytes_to_bytes _ (by decide)) rfl

theorem ptrChain_length (n : Nat) : (ptrChain n).length = 2 * n := by
  induction n with
  | zero => rfl
  | succ n ih =>
    simp [ptrChain, ih]
    omega

theorem chainBuf_length (n : Nat) : (chainBuf n).length = 2 * n + 3 := by
  simp [chainBuf, ptrChain_length]

theorem chainBuf_get (n : Nat) : ∀ j, 1 ≤ j → j ≤ n →
    (chainBuf n).get? (2 * j + 1) = some 192 ∧
    (chainBuf n).get? (2 * j + 2) = some (if j = 1 then 0 else 2 * j - 1) := by
  induction n with
  | zero =>
    intro j h1 h2
    omega
  | succ n ih =>
    intro j h1 h2
    have hcb : chainBuf (n + 1) = chainBuf n ++ [192, if n = 0 then 0 else 2 * n + 1] := by
      simp [chainBuf, ptrChain]
    have hlen := chainBuf_length n
    rw [hcb]
    by_cases hj : j ≤ n
    · obtain ⟨g1, g2⟩ := ih j h1 hj
      constructor
      · rw [List.get?_append (by omega)]
        exact g1
      · rw [List.get?_append (by omega)]
        exact g2
    · have hjn : j = n + 1 := by omega
      subst hjn
      constructor
      · rw [List.get?_append_right (by omega),
          show 2 * (n + 1) + 1 - (chainBuf n).length = 0 by omega]
        rfl
      · rw [List.get?_append_right (by omega),
          show 2 * (n + 1) + 2 - (chainBuf n).length = 1 by omega]
        show some (if n = 0 then 0 else 2 * n + 1) = _
        by_cases hn : n = 0
        · subst hn
          simp
        · rw [if_neg hn, if_neg (by omega)]
          congr 1

theorem chain_first (n j cp : Nat) (h2 : 2 ≤ j) (hjn : j ≤ n) (hn : n ≤ 128) :
    parseLoop ⟨chainBuf n, cp⟩ (2 * j + 1) [] none 0
      = parseLoop ⟨chainBuf n, cp⟩ (2 * (j - 1) + 1) [] (some (2 * j + 3)) 1 := by
  obtain ⟨g1, g2⟩ := chainBuf_get n j (by omega) hjn
  rw [if_neg (by omega)] at g2
  have hg1 : RawMessage.get ⟨chainBuf n, cp⟩ (2 * j + 1) = .ok 192 :=
    RawMessage.get_eq_ok.mpr g1
  have hg2 : RawMessage.get ⟨chainBuf n, cp⟩ (2 * j + 1 + 1) = .ok (2 * j - 1) := by
    rw [RawMessage.get_eq_ok, show 2 * j + 1 + 1 = 2 * j + 2 by omega]
    exact g2
  rw [parseLoop_ptr hg1 (by omega) hg2 (pointer_192 _ (by omega)) (by omega)]
  rw [if_pos rfl, show 2 * j - 1 = 2 * (j - 1) + 1 by omega,
    show 2 * j + 1 + 2 = 2 * j + 3 by omega]

theorem chain_step (n j c cp : Nat) (labels : List (List Nat)) (np : Option Nat)
    (h2 : 2 ≤ j) (hjn : j ≤ n) (hn : n ≤ 128) (hc1 : 1 ≤ c) (hc5 : c + 1 ≤ 5) :
    parseLoop ⟨chainBuf n, cp⟩ (2 * j + 1) labels np c
      = parseLoop ⟨chainBuf n, cp⟩ (2 * (j - 1) + 1) labels np (c + 1) := by
  obtain ⟨g1, g2⟩ := chainBuf_get n j (by omega) hjn
  rw [if_neg (by omega)] at g2
  have hg1 : RawMessage.get ⟨chainBuf n, cp⟩ (2 * j + 1) = .ok 192 :=
    RawMessage.get_eq_ok.mpr g1
  have hg2 : RawMessage.get ⟨chainBuf n, cp⟩ (2 * j + 1 + 1) = .ok (2 * j - 1) := by
    rw [RawMessage.get_eq_ok, show 2 * j + 1 + 1 = 2 * j + 2 by omega]
    exact g2
  rw [parseLoop_ptr hg1 (by omega) hg2 (pointer_192 _ (by omega)) (by omega)]
  rw [if_neg (by omega), show 2 * j - 1 = 2 * (j - 1) + 1 by omega]

theorem chain_stop (n j cp : Nat) (labels : List (List Nat)) (np : Option Nat)
    (h1 : 1 ≤ j) (hjn : j ≤ n) (hn : n ≤ 128) :
    parseLoop ⟨chainBuf n, cp⟩ (2 * j + 1) labels np 5 = .error .compressionLoop := by
  obtain ⟨g1, g2⟩ := chainBuf_get n j h1 hjn
  have hg1 : RawMessage.get ⟨chainBuf n, cp⟩ (2 * j + 1) = .ok 192 :=
    RawMessage.get_eq_ok.mpr g1
  have hg2 : RawMessage.get ⟨chainBuf n, cp⟩ (2 * j + 1 + 1)
      = .ok (if j = 1 then 0 else 2 * j - 1) := by
    rw [RawMessage.get_eq_ok, show 2 * j + 1 + 1 = 2 * j + 2 by omega]
    exact g2
  exact parseLoop_ptr_loop hg1 (by omega) hg2
    (pointer_192 _ (by split <;> omega)) (by omega)

theorem chain_last (n c cp : Nat) (labels : List (List Nat)) (np : Option Nat)
    (h1 : 1 ≤ n) (hn : n ≤ 128) (hc1 : 1 ≤ c) (hc5 : c + 1 ≤ 5) :
    parseLoop ⟨chainBuf n, cp⟩ 3 labels np c = parseLoop ⟨chainBuf n, cp⟩ 0 labels np (c + 1) := by
  obtain ⟨g1, g2⟩ := chainBuf_get n 1 (le_refl 1) h1
  rw [if_pos rfl] at g2
  have hg1 : RawMessage.get ⟨chainBuf n, cp⟩ 3 = .ok 192 := by
    rw [RawMessage.get_eq_ok]
    simpa using g1
  have hg2 : RawMessage.get ⟨chainBuf n, cp⟩ 4 = .ok 0 := by
    rw [RawMessage.get_eq_ok]
    simpa using g2
  rw [show (3 : Nat) = 3 from rfl]
  rw [parseLoop_ptr hg1 (by omega) (by simpa using hg2) (pointer_192 0 (by omega)) (by omega)]
  rw [if_neg (by omega)]

theorem chain_tail (n cp c : Nat) (labels : List (List Nat)) (np : Option Nat) :
    parseLoop ⟨chainBuf n, cp⟩ 0 labels np c = .ok (labels ++ [[97]], np.getD 3) := by
  have hg0 : RawMessage.get ⟨chainBuf n, cp⟩ 0 = .ok 1 := by
    rw [RawMessage.get_eq_ok]
    simp [chainBuf]
  have hg1 : RawMessage.get ⟨chainBuf n, cp⟩ 1 = .ok 97 := by
    rw [RawMessage.get_eq_ok]
    simp [chainBuf]
  have hrange : RawMessage.get_range ⟨chainBuf n, cp⟩ 1 2 = .ok [97] := by
    unfold RawMessage.get_range
    rw [if_pos ⟨by omega, by rw [chainBuf_length]; omega⟩]
    simp [chainBuf]
  rw [parseLoop_label hg0 (by omega) hg1 (pointer_ne (by omega)) (by simpa using hrange)
    (by decide)]
  have hg2 : RawMessage.get ⟨chainBuf n, cp⟩ (0 + 1 + 1) = .ok 0 := by
    rw [RawMessage.get_eq_ok]
    simp [chainBuf]
  rw [parseLoop_zero hg2]

/-- C4: decoding a name that follows a chain of six (or more, up to the 128 pointers a chain
buffer of single-byte offsets can hold) compression pointers fails with the compression-loop
error, while a chain of exactly five pointers decodes successfully (here to the name `"a"`). -/
theorem C4_jump_bound :
    (∀ n, 6 ≤ n → n ≤ 128 →
      parse_labels ⟨chainBuf n, 2 * n + 1⟩ = .error .compressionLoop) ∧
    parse_labels ⟨chainBuf 5, 11⟩ = .ok (strBytes "a", ⟨chainBuf 5, 13⟩) := by
  constructor
  · intro n h6 h128
    rw [parse_labels]
    simp only []
    have e1 := chain_first n n (2 * n + 1) (by omega) (le_refl n) h128
    have e2 := chain_step n (n - 1) 1 (2 * n + 1) [] (some (2 * n + 3)) (by omega) (by omega)
      h128 (by omega) (by omega)
    rw [show n - 1 - 1 = n - 2 from by omega] at e2
    have e3 := chain_step n (n - 2) 2 (2 * n + 1) [] (some (2 * n + 3)) (by omega) (by omega)
      h128 (by omega) (by omega)
    rw [show n - 2 - 1 = n - 3 from by omega] at e3
    have e4 := chain_step n (n - 3) 3 (2 * n + 1) [] (some (2 * n + 3)) (by omega) (by omega)
      h128 (by omega) (by omega)
    rw [show n - 3 - 1 = n - 4 from by omega] at e4
    have e5 := chain_step n (n - 4) 4 (2 * n + 1) [] (some (2 * n + 3)) (by omega) (by omega)
      h128 (by omega) (by omega)
    rw [show n - 4 - 1 = n - 5 from by omega] at e5
    have e6 := chain_stop n (n - 5) (2 * n + 1) [] (some (2 * n + 3)) (by omega) (by omega) h128
    rw [e1, e2, e3, e4, e5, e6]
  · rw [parse_labels]
    simp only []
    have e1 := chain_first 5 5 11 (by omega) (le_refl 5) (by omega)
    norm_num at e1
    have e2 := chain_step 5 4 1 11 [] (some 13) (by omega) (by omega) (by omega) (by omega)
      (by omega)
    norm_num at e2
    have e3 := chain_step 5 3 2 11 [] (some 13) (by omega) (by omega) (by omega) (by omega)
      (by omega)
    norm_num at e3
    have e4 := chain_step 5 2 3 11 [] (some 13) (by omega) (by omega) (by omega) (by omega)
      (by omega)
    norm_num at e4
    have e5 := chain_last 5 4 11 [] (some 13) (by omega) (by omega) (by omega) (by omega)
    norm_num at e5
    have e6 := chain_tail 5 11 5 [] (some 13)
    rw [e1, e2, e3, e4, e5, e6]
    decide

/-- C4 witness: the shortest failing chain, six pointers. -/
theorem C4_jump_bound_witness :
    parse_labels ⟨chainBuf 6, 2 * 6 + 1⟩ = .error .compressionLoop :=
  C4_jump_bound.1 6 (by decide) (by decide)

theorem firstPtrScan_oob {bytes : RawMessage} {current : Nat} {e : DnsError}
    (h : bytes.get current = .error e) : firstPtrScan bytes current = none := by
  rw [firstPtrScan.eq_def, h]

theorem firstPtrScan_zero {bytes : RawMessage} {current : Nat}
    (h : bytes.get current = .ok 0) : firstPtrScan bytes current = none := by
  rw [firstPtrScan.eq_def, h]
  simp

theorem firstPtrScan_next_err {bytes : RawMessage} {current len : Nat} {e : DnsError}
    (h : bytes.get current = .ok len) (h0 : len ≠ 0)
    (h1 : bytes.get (current + 1) = .error e) : firstPtrScan bytes current = none := by
  rw [firstPtrScan.eq_def, h]
  simp [h0, h1]

theorem firstPtrScan_ptr {bytes : RawMessage} {current len nb off : Nat}
    (h : bytes.get current = .ok len) (h0 : len ≠ 0)
    (h1 : bytes.get (current + 1) = .ok nb) (hp : pointer len nb = some off) :
    firstPtrScan bytes current = some current := by
  rw [firstPtrScan.eq_def, h]
  simp [h0, h1, hp]

theorem firstPtrScan_label {bytes : RawMessage} {current len nb : Nat}
    (h : bytes.get current = .ok len) (h0 : len ≠ 0)
    (h1 : bytes.get (current + 1) = .ok nb) (hp : pointer len nb = none) :
    firstPtrScan bytes current = firstPtrScan bytes (current + 1 + len) := by
  rw [firstPtrScan.eq_def, h]
  simp [h0, h1, hp]

theorem nameScan_oob {bytes : RawMessage} {current : Nat} {e : DnsError}
    (h : bytes.get current = .error e) : nameScan bytes current = .offEnd current := by
  rw [nameScan.eq_def, h]

theorem nameScan_zero {bytes : RawMessage} {current : Nat}
    (h : bytes.get current = .ok 0) : nameScan bytes current = .term current := by
  rw [nameScan.eq_def, h]
  simp

theorem nameScan_next_err {bytes : RawMessage} {current len : Nat} {e : DnsError}
    (h : bytes.get current = .ok len) (h0 : len ≠ 0)
    (h1 : bytes.get (current + 1) = .error e) : nameScan bytes current = .bad := by
  rw [nameScan.eq_def, h]
  simp [h0, h1]

theorem nameScan_ptr {bytes : RawMessage} {current len nb off : Nat}
    (h : bytes.get current = .ok len) (h0 : len ≠ 0)
    (h1 : bytes.get (current + 1) = .ok nb) (hp : pointer len nb = some off) :
    nameScan bytes current = .ptr current := by
  rw [nameScan.eq_def, h]
  simp [h0, h1, hp]

theorem nameScan_label {bytes : RawMessage} {current len nb : Nat}
    (h : bytes.get current = .ok len) (h0 : len ≠ 0)
    (h1 : bytes.get (current + 1) = .ok nb) (hp : pointer len nb = none) :
    nameScan bytes current = nameScan bytes (current + 1 + len) := by
  rw [nameScan.eq_def, h]
  simp [h0, h1, hp]

/-- The plain first-pointer scan is exactly the pointer projection of the full name scan:
they follow the same label stepping, and only a scan ending at a pointer yields one. -/
theorem firstPtrScan_eq_nameScan (bytes : RawMessage) :
    ∀ current, firstPtrScan bytes current =
      (match nameScan bytes current with
       | NameScan.ptr p => some p
       | _ => none) := by
  refine nameScan.induct bytes
    (motive := fun current => firstPtrScan bytes current =
      (match nameScan bytes current with
       | NameScan.ptr p => some p
       | _ => none)) ?_ ?_ ?_ ?_ ?_
  · intro current e h
    rw [firstPtrScan_oob h, nameScan_oob h]
  · intro current h
    rw [firstPtrScan_zero h, nameScan_zero h]
  · intro current len h h0 e h1
    rw [firstPtrScan_next_err h h0 h1, nameScan_next_err h h0 h1]
  · intro current len h h0 nb h1 off hp
    rw [firstPtrScan_ptr h h0 h1 hp, nameScan_ptr h h0 h1 hp]
  · intro current len h h0 nb h1 hp ih
    rw [firstPtrScan_label h h0 h1 hp, nameScan_label h h0 h1 hp]
    exact ih

/-- Once the resume position has been remembered (a pointer was already followed), the loop's
final cursor is exactly that position, whatever else it reads. -/
theorem parseLoop_fixed_resume (bytes : RawMessage) :
    ∀ (current : Nat) (labels : List (List Nat)) (np : Option Nat) (c : Nat),
    ∀ (r : Nat) (ls : List (List Nat)) (fin : Nat), np = some r → 1 ≤ c →
      parseLoop bytes current labels np c = .ok (ls, fin) → fin = r := by
  refine parseLoop.induct bytes
    (motive := fun current labels np c => ∀ (r : Nat) (ls : List (List Nat)) (fin : Nat),
      np = some r → 1 ≤ c → parseLoop bytes current labels np c = .ok (ls, fin) → fin = r)
    ?_ ?_ ?_ ?_ ?_ ?_ ?_ ?_
  · intro current labels np c a h r ls fin hnp hc hp
    rw [parseLoop_oob h, hnp] at hp
    simp only [Option.getD_some, Except.ok.injEq, Prod.mk.injEq] at hp
    exact hp.2.symm
  · intro current labels np c h r ls fin hnp hc hp
    rw [parseLoop_zero h, hnp] at hp
    simp only [Option.getD_some, Except.ok.injEq, Prod.mk.injEq] at hp
    exact hp.2.symm
  · intro current labels np c len h h0 e h1 r ls fin hnp hc hp
    rw [parseLoop_next_err h h0 h1] at hp
    exact absurd hp (by simp)
  · intro current labels np c len h h0 nb h1 off hptr hj r ls fin hnp hc hp
    rw [parseLoop_ptr_loop h h0 h1 hptr hj] at hp
    exact absurd hp (by simp)
  · intro current labels np c len h h0 nb h1 off hptr hj ih r ls fin hnp hc hp
    rw [parseLoop_ptr h h0 h1 hptr (by omega)] at hp
    rw [show (if c = 0 then some (current + 2) else np) = np from if_neg (by omega)] at hp
    refine ih r ls fin ?_ (by omega) ?_
    · rw [dif_neg (by omega)]
      exact hnp
    · rw [show (if h : c = 0 then some (current + 2) else np) = np from dif_neg (by omega)]
      exact hp
  · intro current labels np c len h h0 nb h1 hptr e hr r ls fin hnp hc hp
    rw [parseLoop_range_err h h0 h1 hptr hr] at hp
    exact absurd hp (by simp)
  · intro current labels np c len h h0 nb h1 hptr label hr hv ih r ls fin hnp hc hp
    rw [parseLoop_label h h0 h1 hptr hr hv] at hp
    exact ih r ls fin hnp hc hp
  · intro current labels np c len h h0 nb h1 hptr label hr hv r ls fin hnp hc hp
    rw [parseLoop_utf8_err h h0 h1 hptr hr (by simpa using hv)] at hp
    exact absurd hp (by simp)

/-- RawMessage.get fails exactly on out-of-range indices. -/
theorem RawMessage.get_eq_err {m : RawMessage} {n : Nat} {e : DnsError}
    (h : m.get n = .error e) : m.buffer.length ≤ n := by
  unfold RawMessage.get at h
  rcases heq : m.buffer.get? n with _ | b
  · exact List.get?_eq_none.mp heq
  · rw [heq] at h
    exact absurd h (by simp)

/-- A fresh run of the label loop (no pointer followed yet): the final cursor is pinned by
the reference scan — just past the first pointer the scan meets, or just past the name's
terminating zero byte, or exactly the scan's off-end position; a scan that ends at a
malformed label is impossible for a successful decode. -/
theorem parseLoop_fresh_cursor (bytes : RawMessage) :
    ∀ (current : Nat) (labels : List (List Nat)) (np : Option Nat) (c : Nat),
    ∀ (ls : List (List Nat)) (fin : Nat), np = none → c = 0 →
      parseLoop bytes current labels np c = .ok (ls, fin) →
      (match nameScan bytes current with
       | NameScan.ptr p => fin = p + 2
       | NameScan.term z => bytes.buffer.get? z = some 0 ∧ fin = z + 1
       | NameScan.offEnd e => bytes.buffer.length ≤ e ∧ fin = e
       | NameScan.bad => False) := by
  refine parseLoop.induct bytes
    (motive := fun current labels np c => ∀ (ls : List (List Nat)) (fin : Nat),
      np = none → c = 0 → parseLoop bytes current labels np c = .ok (ls, fin) →
      (match nameScan bytes current with
       | NameScan.ptr p => fin = p + 2
       | NameScan.term z => bytes.buffer.get? z = some 0 ∧ fin = z + 1
       | NameScan.offEnd e => bytes.buffer.length ≤ e ∧ fin = e
       | NameScan.bad => False))
    ?_ ?_ ?_ ?_ ?_ ?_ ?_ ?_
  · -- loop exit by failing read: the scan runs off the end exactly here
    intro current labels np c a h ls fin hnp hc hp
    rw [parseLoop_oob h, hnp] at hp
    simp only [Option.getD_none, Except.ok.injEq, Prod.mk.injEq] at hp
    rw [nameScan_oob h]
    exact ⟨RawMessage.get_eq_err h, hp.2.symm⟩
  · -- zero byte: this position is the name's terminating zero
    intro current labels np c h ls fin hnp hc hp
    rw [parseLoop_zero h, hnp] at hp
    simp only [Option.getD_none, Except.ok.injEq, Prod.mk.injEq] at hp
    rw [nameScan_zero h]
    exact ⟨RawMessage.get_eq_ok.mp h, hp.2.symm⟩
  · intro current labels np c len h h0 e h1 ls fin hnp hc hp
    rw [parseLoop_next_err h h0 h1] at hp
    exact absurd hp (by simp)
  · intro current labels np c len h h0 nb h1 off hptr hj ls fin hnp hc hp
    rw [parseLoop_ptr_loop h h0 h1 hptr hj] at hp
    exact absurd hp (by simp)
  · -- first pointer taken: the remembered resume position pins the final cursor
    intro current labels np c len h h0 nb h1 off hptr hj ih ls fin hnp hc hp
    clear ih
    subst hc
    rw [parseLoop_ptr h h0 h1 hptr (by omega), if_pos rfl] at hp
    rw [nameScan_ptr h h0 h1 hptr]
    exact parseLoop_fixed_resume bytes off labels (some (current + 2)) 1 (current + 2) ls fin
      rfl (le_refl 1) hp
  · intro current labels np c len h h0 nb h1 hptr e hr ls fin hnp hc hp
    rw [parseLoop_range_err h h0 h1 hptr hr] at hp
    exact absurd hp (by simp)
  · -- plain label: step both the loop and the scan
    intro current labels np c len h h0 nb h1 hptr label hr hv ih ls fin hnp hc hp
    rw [parseLoop_label h h0 h1 hptr hr hv] at hp
    rw [nameScan_label h h0 h1 hptr]
    exact ih ls fin hnp hc hp
  · intro current labels np c len h h0 nb h1 hptr label hr hv ls fin hnp hc hp
    rw [parseLoop_utf8_err h h0 h1 hptr hr (by simpa using hv)] at hp
    exact absurd hp (by simp)

/-- C5: after a successful name decode, the cursor handed to the enclosing record's following
fixed-size fields is pinned exactly by the reference scan of the name: whenever at least one
compression pointer was followed (the scan meets a first pointer at `p`, however many pointers
follow it) the cursor is the position `p + 2` immediately after that 2-byte pointer field;
otherwise the scan meets no pointer, and the cursor is the position just past the name's
terminating zero byte `z` — the exact zero the scan terminates at — or, when the name runs off
the buffer without a terminator, exactly the scan's past-the-end position (where every
subsequent fixed-size read fails).  A scan ending in a malformed label cannot decode. -/
theorem C5_resume_cursor (bytes : RawMessage) (name : List Nat) (out : RawMessage)
    (h : parse_labels bytes = .ok (name, out)) :
    (∀ p, firstPtrScan bytes bytes.currentPos = some p → out.currentPos = p + 2) ∧
    (match nameScan bytes bytes.currentPos with
     | NameScan.ptr p => firstPtrScan bytes bytes.currentPos = some p ∧
         out.currentPos = p + 2
     | NameScan.term z => firstPtrScan bytes bytes.currentPos = none ∧
         bytes.buffer.get? z = some 0 ∧ out.currentPos = z + 1
     | NameScan.offEnd e => firstPtrScan bytes bytes.currentPos = none ∧
         bytes.buffer.length ≤ e ∧ out.currentPos = e
     | NameScan.bad => False) := by
  have hrel := firstPtrScan_eq_nameScan bytes bytes.currentPos
  unfold parse_labels at h
  rcases hp : parseLoop bytes bytes.currentPos [] none 0 with e | ⟨ls, fin⟩
  · rw [hp] at h
    exact absurd h (by simp)
  · rw [hp] at h
    simp only [Except.ok.injEq, Prod.mk.injEq] at h
    have hout : out.currentPos = fin := by
      rw [← h.2]
    have hcore := parseLoop_fresh_cursor bytes bytes.currentPos [] none 0 ls fin rfl rfl hp
    rcases hscan : nameScan bytes bytes.currentPos with p | z | e
    · rw [hscan] at hcore hrel
      refine ⟨?_, hrel, hout ▸ hcore⟩
      intro q hq
      rw [hrel] at hq
      simp only [Option.some.injEq] at hq
      rw [hout, hcore, hq]
    · rw [hscan] at hcore hrel
      refine ⟨?_, hrel, hcore.1, hout ▸ hcore.2⟩
      intro q hq
      rw [hrel] at hq
      exact absurd hq (by simp)
    · rw [hscan] at hcore hrel
      refine ⟨?_, hrel, hcore.1, hout ▸ hcore.2⟩
      intro q hq
      rw [hrel] at hq
      exact absurd hq (by simp)
    · rw [hscan] at hcore
      exact absurd hcore (by simp)

/-- C5 witness: one decode that follows a single pointer (the scan finds the first pointer at
position 3 and the cursor resumes at 3 + 2) and one uncompressed decode (the scan finds the
terminating zero at position 2 and the cursor lands at 2 + 1). -/
theorem C5_resume_cursor_witness :
    nameScan ⟨[1, 97, 0, 192, 0, 7], 3⟩ 3 = NameScan.ptr 3 ∧
    firstPtrScan ⟨[1, 97, 0, 192, 0, 7], 3⟩ 3 = some 3 ∧
    (⟨[1, 97, 0, 192, 0, 7], 5⟩ : RawMessage).currentPos = 3 + 2 ∧
    nameScan ⟨[1, 97, 0], 0⟩ 0 = NameScan.term 2 ∧
    firstPtrScan ⟨[1, 97, 0], 0⟩ 0 = none ∧
    ([1, 97, 0] : List Nat).get? 2 = some 0 ∧
    (⟨[1, 97, 0], 3⟩ : RawMessage).currentPos = 2 + 1 := by
  have hn1 : nameScan ⟨[1, 97, 0, 192, 0, 7], 3⟩ 3 = NameScan.ptr 3 :=
    nameScan_ptr (by decide) (by decide) (by decide) (show pointer 192 0 = some 0 by decide)
  have h1 : parse_labels ⟨[1, 97, 0, 192, 0, 7], 3⟩ =
      .ok (strBytes "a", ⟨[1, 97, 0, 192, 0, 7], 5⟩) := by
    rw [parse_labels]
    simp only []
    rw [parseLoop_ptr (show RawMessage.get ⟨[1, 97, 0, 192, 0, 7], 3⟩ 3 = .ok 192 by decide)
      (by decide) (show RawMessage.get ⟨[1, 97, 0, 192, 0, 7], 3⟩ (3 + 1) = .ok 0 by decide)
      (show pointer 192 0 = some 0 by decide) (by decide)]
    rw [if_pos rfl]
    rw [parseLoop_label (show RawMessage.get ⟨[1, 97, 0, 192, 0, 7], 3⟩ 0 = .ok 1 by decide)
      (by decide) (show RawMessage.get ⟨[1, 97, 0, 192, 0, 7], 3⟩ (0 + 1) = .ok 97 by decide)
      (show pointer 1 97 = none by decide)
      (show RawMessage.get_range ⟨[1, 97, 0, 192, 0, 7], 3⟩ (0 + 1) (0 + 1 + 1) = .ok [97]
        by decide) (by decide)]
    rw [parseLoop_zero
      (show RawMessage.get ⟨[1, 97, 0, 192, 0, 7], 3⟩ (0 + 1 + 1) = .ok 0 by decide)]
    decide
  have hn2 : nameScan ⟨[1, 97, 0], 0⟩ 0 = NameScan.term 2 := by
    rw [nameScan_label (show RawMessage.get ⟨[1, 97, 0], 0⟩ 0 = .ok 1 by decide) (by decide)
      (show RawMessage.get ⟨[1, 97, 0], 0⟩ (0 + 1) = .ok 97 by decide)
      (show pointer 1 97 = none by decide)]
    exact nameScan_zero (show RawMessage.get ⟨[1, 97, 0], 0⟩ (0 + 1 + 1) = .ok 0 by decide)
  have h2 : parse_labels ⟨[1, 97, 0], 0⟩ = .ok (strBytes "a", ⟨[1, 97, 0], 3⟩) := by
    rw [parse_labels]
    simp only []
    rw [parseLoop_label (show RawMessage.get ⟨[1, 97, 0], 0⟩ 0 = .ok 1 by decide)
      (by decide) (show RawMessage.get ⟨[1, 97, 0], 0⟩ (0 + 1) = .ok 97 by decide)
      (show pointer 1 97 = none by decide)
      (show RawMessage.get_range ⟨[1, 97, 0], 0⟩ (0 + 1) (0 + 1 + 1) = .ok [97] by decide)
      (by decide)]
    rw [parseLoop_zero (show RawMessage.get ⟨[1, 97, 0], 0⟩ (0 + 1 + 1) = .ok 0 by decide)]
    decide
  have hm1 := (C5_resume_cursor ⟨[1, 97, 0, 192, 0, 7], 3⟩ (strBytes "a")
    ⟨[1, 97, 0, 192, 0, 7], 5⟩ h1).2
  rw [hn1] at hm1
  have hm2 := (C5_resume_cursor ⟨[1, 97, 0], 0⟩ (strBytes "a") ⟨[1, 97, 0], 3⟩ h2).2
  rw [hn2] at hm2
  exact ⟨hn1, hm1.1, hm1.2, hn2, hm2.1, hm2.2.1, hm2.2.2⟩
